import Mathlib

/-!
keytar: the macOS backend adapter (`src/keytar_mac.cc`).

A shallow embedding of the eight backend operations and of the helpers they
are built from, followed by theorems about them.

Conventions of the embedding.

* A `std::string` received from the binding layer holds UTF-8 text.  It is
  represented by the sequence of Unicode scalar values it encodes (`List Char`);
  its bytes are `utf8Bytes`, and byte counts are taken with `utf8Size`.  UTF-8
  is injective, so two such strings have the same bytes exactly when they are
  the same list.
* A C string is read up to its first NUL (`readCString`).
* An out-parameter (`std::string* error`, `std::string* secret`, ...) is a cell
  `Out` that carries its current value and the number of assignments made
  through the pointer; a function receives the cell and returns it.
* The Security / CoreFoundation calls are the fields of `Native`; every call an
  operation issues is appended to the `calls` log of the `World`.
* A C array is the list of its declared slots.  A read of a slot the array does
  not have yields `outOfBounds slot`, standing for whatever the memory beyond
  the array holds, so a dictionary built with too large a count carries that
  entry to the native call.
* Statements about control flow hold for every `Native`.  Statements about what
  is stored hold for `reference`, a keychain that reports not-found and
  duplicate and fails for no other reason.  `scripted` replays a list of
  statuses and serves the concrete examples.
-/

namespace keytar

/-! ## Outcome model and entities -/

/-- Modelled from the spec: the three-way outcome declared in `keytar.h`
(`Success`, `Error`, `NonFatal`), under the enumerator names the backend uses. -/
inductive KEYTAR_OP_RESULT where
  | SUCCESS
  | FAIL_ERROR
  | FAIL_NONFATAL
  deriving DecidableEq, Repr

/-- A `std::string` holding UTF-8 text, as the scalar values it encodes. -/
abbrev StdString := List Char

/-- A `CFStringRef`: a sequence of Unicode scalar values. -/
abbrev CFString := List Char

/-- A `CFDataRef` holding UTF-8 text, as the scalar values it encodes. -/
abbrev CFData := List Char

/-- Modelled from the spec: the credential entity of `credentials.h`, one
`(account, secret)` pair; `Credentials()` is the pair of two empty strings. -/
structure Credentials where
  account : StdString
  secret : StdString
  deriving DecidableEq, Repr

/-- The default-constructed `Credentials()`. -/
def Credentials.empty : Credentials := ⟨[], []⟩

/-- An out-parameter: the value behind the pointer and how many times it has
been assigned through the pointer. -/
structure Out (α : Type) where
  value : α
  writes : Nat
  deriving DecidableEq, Repr

/-- The assignment `*p = v`. -/
def Out.assign {α : Type} (o : Out α) (v : α) : Out α :=
  ⟨v, o.writes + 1⟩

/-! ## Text encodings -/

/-- The NUL character. -/
def NUL : Char := Char.ofNat 0

/-- Number of bytes of a scalar value in UTF-8. -/
def utf8Size (c : Char) : Nat :=
  if c.toNat < 0x80 then 1
  else if c.toNat < 0x800 then 2
  else if c.toNat < 0x10000 then 3
  else 4

/-- Number of UTF-16 code units of a scalar value. -/
def utf16Size (c : Char) : Nat :=
  if c.toNat < 0x10000 then 1 else 2

/-- The UTF-8 bytes of a scalar value. -/
def utf8EncodeChar (c : Char) : List Nat :=
  let n := c.toNat
  if n < 0x80 then [n]
  else if n < 0x800 then [0xC0 + n / 64, 0x80 + n % 64]
  else if n < 0x10000 then [0xE0 + n / 4096, 0x80 + n / 64 % 64, 0x80 + n % 64]
  else [0xF0 + n / 262144, 0x80 + n / 4096 % 64, 0x80 + n / 64 % 64, 0x80 + n % 64]

/-- The bytes of a text. -/
def utf8Bytes (s : List Char) : List Nat :=
  s.flatMap utf8EncodeChar

/-- Byte count of a text in UTF-8. -/
def utf8Length (s : List Char) : Nat :=
  (s.map utf8Size).sum

/-- Reading a NUL-terminated C string from memory: everything before the
first NUL. -/
def readCString (mem : List Char) : List Char :=
  mem.takeWhile (fun c => c != NUL)

/-- `CFStringGetLength`: the number of UTF-16 code units of the string. -/
def CFStringGetLength (cfstring : CFString) : Nat :=
  (cfstring.map utf16Size).sum

/-- `CFStringGetCString(cfstring, buffer, bufferSize, kCFStringEncodingUTF8)`:
the buffer's content (the UTF-8 text, NUL-terminated) on success, `none` when
the text and its terminating NUL do not fit in `bufferSize` bytes. -/
def CFStringGetCString (cfstring : CFString) (bufferSize : Nat) : Option (List Char) :=
  if utf8Length cfstring + 1 ≤ bufferSize then some cfstring else none

/-- `CFStringCreateWithCString(NULL, cstr, kCFStringEncodingUTF8)`. -/
def CFStringCreateWithCString (cstr : List Char) : CFString :=
  readCString cstr

/-- `CFStringCreateExternalRepresentation(NULL, s, kCFStringEncodingUTF8, 0)`. -/
def CFStringCreateExternalRepresentation (s : CFString) : CFData := s

/-- `CFStringCreateFromExternalRepresentation(NULL, data, kCFStringEncodingUTF8)`. -/
def CFStringCreateFromExternalRepresentation (data : CFData) : CFString := data

/-! ## CoreFoundation values and dictionaries -/

/-- `OSStatus`. -/
abbrev OSStatus := Int

/-- `errSecSuccess` of the Security framework. -/
def errSecSuccess : OSStatus := 0

/-- `errSecItemNotFound` of the Security framework. -/
def errSecItemNotFound : OSStatus := -25300

/-- `errSecDuplicateItem` of the Security framework. -/
def errSecDuplicateItem : OSStatus := -25299

/-- The dictionary keys the backend uses.  `outOfBounds slot` is what a read of
slot `slot` yields when the key array has no such slot: whatever the memory
beyond the array holds, which is none of the keys the backend names. -/
inductive CFKey where
  | kSecClass
  | kSecAttrServer
  | kSecAttrService
  | kSecAttrAccount
  | kSecValueData
  | kSecMatchLimit
  | kSecReturnData
  | kSecReturnAttributes
  | kSecReturnRef
  | outOfBounds (slot : Nat)
  deriving DecidableEq, Repr

/-- `CFSTR("v_Data")`, the string value of `kSecValueData`. -/
def CFSTR_v_Data : CFKey := CFKey.kSecValueData

/-- The dictionary values the backend uses.  `outOfBounds slot` is what a read
of slot `slot` yields when the value array has no such slot: whatever the
memory beyond the array holds. -/
inductive CFValue where
  | null
  | kSecClassInternetPassword
  | kSecClassGenericPassword
  | kSecMatchLimitOne
  | kSecMatchLimitAll
  | kCFBooleanTrue
  | string (s : CFString)
  | data (d : CFData)
  | outOfBounds (slot : Nat)
  deriving DecidableEq, Repr

/-- An immutable or mutable CoreFoundation dictionary, as its entries. -/
abbrev CFDictionary := List (CFKey × CFValue)

/-- What a `CFTypeRef` result of `SecItemCopyMatching` refers to. -/
inductive CFTypeRef where
  | null
  | data (d : CFData)
  | dictionary (d : CFDictionary)
  | array (items : List CFDictionary)
  deriving DecidableEq, Repr

/-- `CFDictionaryGetValue`. -/
def CFDictionaryGetValue (d : CFDictionary) (k : CFKey) : CFValue :=
  match d.find? (fun e => e.1 = k) with
  | some e => e.2
  | none => CFValue.null

/-- The cast `(CFStringRef) v`; a value of another kind reads as the empty string. -/
def CFValue.asString : CFValue → CFString
  | CFValue.string s => s
  | _ => []

/-- The cast `(CFDataRef) v`; a value of another kind reads as empty data. -/
def CFValue.asData : CFValue → CFData
  | CFValue.data d => d
  | _ => []

/-- The cast `(CFDataRef) ref`. -/
def CFTypeRef.asData : CFTypeRef → CFData
  | CFTypeRef.data d => d
  | _ => []

/-- The cast `(CFDictionaryRef) ref`. -/
def CFTypeRef.asDictionary : CFTypeRef → CFDictionary
  | CFTypeRef.dictionary d => d
  | _ => []

/-- The cast `(CFArrayRef) ref`. -/
def CFTypeRef.asArray : CFTypeRef → List CFDictionary
  | CFTypeRef.array items => items
  | _ => []

/-- The arguments of one `CFDictionaryCreate` call: the key array and the value
array as declared and populated (one list element per declared slot) and the
entry count `numValues` passed to the constructor. -/
structure CFDictionaryCreateArgs where
  keys : List CFKey
  values : List CFValue
  numValues : Nat
  deriving DecidableEq, Repr

/-- The read `keys[slot]` of a C key array: the slot's content, or what lies
beyond the array when the array has no such slot. -/
def readKeySlot (keys : List CFKey) (slot : Nat) : CFKey :=
  keys.getD slot (CFKey.outOfBounds slot)

/-- The read `values[slot]` of a C value array: the slot's content, or what lies
beyond the array when the array has no such slot. -/
def readValueSlot (values : List CFValue) (slot : Nat) : CFValue :=
  values.getD slot (CFValue.outOfBounds slot)

/-- `CFDictionaryCreate`: one entry per slot `0 .. numValues - 1`, read from the
key array and from the value array.  A count larger than the arrays makes it
read beyond them, and the dictionary then carries the out-of-bounds entry. -/
def CFDictionaryCreate (a : CFDictionaryCreateArgs) : CFDictionary :=
  (List.range a.numValues).map (fun slot => (readKeySlot a.keys slot, readValueSlot a.values slot))

/-- `CFDictionaryCreateMutable(NULL, 0, ...)`. -/
def CFDictionaryCreateMutable : CFDictionary := []

/-- `CFDictionaryAddValue`: adds the entry when the key is not yet present. -/
def CFDictionaryAddValue (d : CFDictionary) (k : CFKey) (v : CFValue) : CFDictionary :=
  if d.any (fun e => e.1 = k) then d else d ++ [(k, v)]

/-! ## The native interface -/

/-- A `SecKeychainItemRef`: the item it denotes, by compound key. -/
structure SecKeychainItemRef where
  service : StdString
  account : StdString
  deriving DecidableEq, Repr

/-- The Security / CoreFoundation functions the backend calls, over an
arbitrary native state `σ`.  Every stateful call returns its `OSStatus`, its
outputs and the next native state; any sequence of statuses can be produced by
a suitable `σ`.

`SecKeychainFindGenericPassword` takes the service bytes and, when an account
is passed (`accountName` not `NULL`), the account bytes, and yields the
password data and the item reference.  `CFStringGetCStringPtr` tells whether
the direct UTF-8 pointer of a string is available. -/
structure Native (σ : Type) where
  CFStringGetCStringPtr : CFString → Bool
  SecCopyErrorMessageString : OSStatus → CFString
  SecItemUpdate : CFDictionary → CFDictionary → σ → OSStatus × σ
  SecItemAdd : CFDictionary → σ → OSStatus × σ
  SecItemCopyMatching : CFDictionary → σ → OSStatus × CFTypeRef × σ
  SecItemDelete : CFDictionary → σ → OSStatus × σ
  SecKeychainAddGenericPassword : StdString → StdString → StdString → σ → OSStatus × σ
  SecKeychainFindGenericPassword :
    StdString → Option StdString → σ → OSStatus × StdString × SecKeychainItemRef × σ
  SecKeychainItemDelete : SecKeychainItemRef → σ → OSStatus × σ

/-- One native call, with its arguments. -/
inductive NativeCall where
  | SecItemUpdate (query attributes : CFDictionary)
  | SecItemAdd (attributes : CFDictionary)
  | SecItemCopyMatching (query : CFDictionary)
  | SecItemDelete (query : CFDictionary)
  | SecKeychainAddGenericPassword (service account password : StdString)
  | SecKeychainFindGenericPassword (service : StdString) (account : Option StdString)
  | SecKeychainItemDelete (item : SecKeychainItemRef)
  deriving DecidableEq, Repr

/-- The native state together with the log of the native calls issued so far,
oldest first. -/
structure World (σ : Type) where
  keychain : σ
  calls : List NativeCall

/-- The call `SecItemUpdate(query, attributes)`, logged. -/
def SecItemUpdate {σ : Type} (N : Native σ) (query attributes : CFDictionary)
    (w : World σ) : OSStatus × World σ :=
  let r := N.SecItemUpdate query attributes w.keychain
  (r.1, ⟨r.2, w.calls ++ [NativeCall.SecItemUpdate query attributes]⟩)

/-- The call `SecItemAdd(attributes, &result)`, logged. -/
def SecItemAdd {σ : Type} (N : Native σ) (attributes : CFDictionary)
    (w : World σ) : OSStatus × World σ :=
  let r := N.SecItemAdd attributes w.keychain
  (r.1, ⟨r.2, w.calls ++ [NativeCall.SecItemAdd attributes]⟩)

/-- The call `SecItemCopyMatching(query, &result)`, logged. -/
def SecItemCopyMatching {σ : Type} (N : Native σ) (query : CFDictionary)
    (w : World σ) : OSStatus × CFTypeRef × World σ :=
  let r := N.SecItemCopyMatching query w.keychain
  (r.1, r.2.1, ⟨r.2.2, w.calls ++ [NativeCall.SecItemCopyMatching query]⟩)

/-- The call `SecItemDelete(query)`, logged. -/
def SecItemDelete {σ : Type} (N : Native σ) (query : CFDictionary)
    (w : World σ) : OSStatus × World σ :=
  let r := N.SecItemDelete query w.keychain
  (r.1, ⟨r.2, w.calls ++ [NativeCall.SecItemDelete query]⟩)

/-- The call `SecKeychainAddGenericPassword(NULL, ...)`, logged. -/
def SecKeychainAddGenericPassword {σ : Type} (N : Native σ)
    (service account password : StdString) (w : World σ) : OSStatus × World σ :=
  let r := N.SecKeychainAddGenericPassword service account password w.keychain
  (r.1, ⟨r.2, w.calls ++ [NativeCall.SecKeychainAddGenericPassword service account password]⟩)

/-- The call `SecKeychainFindGenericPassword(NULL, ...)`, logged. -/
def SecKeychainFindGenericPassword {σ : Type} (N : Native σ)
    (service : StdString) (account : Option StdString) (w : World σ) :
    OSStatus × StdString × SecKeychainItemRef × World σ :=
  let r := N.SecKeychainFindGenericPassword service account w.keychain
  (r.1, r.2.1, r.2.2.1,
    ⟨r.2.2.2, w.calls ++ [NativeCall.SecKeychainFindGenericPassword service account]⟩)

/-- The call `SecKeychainItemDelete(item)`, logged. -/
def SecKeychainItemDelete {σ : Type} (N : Native σ) (item : SecKeychainItemRef)
    (w : World σ) : OSStatus × World σ :=
  let r := N.SecKeychainItemDelete item w.keychain
  (r.1, ⟨r.2, w.calls ++ [NativeCall.SecKeychainItemDelete item]⟩)

/-! ## String helpers of the backend -/

/-- `CFStringToStdString`: the direct pointer when `CFStringGetCStringPtr`
yields one, else `CFStringGetCString` into a buffer of `length * 2 + 1` bytes;
the empty string when that conversion fails. -/
def CFStringToStdString {σ : Type} (N : Native σ) (cfstring : CFString) : StdString :=
  if N.CFStringGetCStringPtr cfstring then
    readCString cfstring
  else
    let length := CFStringGetLength cfstring
    let cstrPtrLen := length * 2 + 1
    match CFStringGetCString cfstring cstrPtrLen with
    | some cstrPtr => readCString cstrPtr
    | none => []

/-- `StdStringToCFString`: `CFStringCreateWithCString` on `stdstring.c_str()`. -/
def StdStringToCFString (stdstring : StdString) : CFString :=
  CFStringCreateWithCString stdstring

/-- `errorStatusToString`: the message of `SecCopyErrorMessageString` when its
direct pointer is available, else the fixed text. -/
def errorStatusToString {σ : Type} (N : Native σ) (status : OSStatus) : StdString :=
  let errorMessageString := N.SecCopyErrorMessageString status
  if N.CFStringGetCStringPtr errorMessageString then
    readCString errorMessageString
  else
    "An unknown error occurred.".toList

/-! ## The eight operations -/

/-- What an operation without payload returns: its result, the `error` cell and
the world. -/
structure OpRet (σ : Type) where
  result : KEYTAR_OP_RESULT
  error : Out StdString
  world : World σ

/-- What an operation with a string payload returns: its result, the payload
cell (`secret` or `password`), the `error` cell and the world. -/
structure GetRet (σ : Type) where
  result : KEYTAR_OP_RESULT
  payload : Out StdString
  error : Out StdString
  world : World σ

/-- What `FindCredentials` returns: its result, the `credentials` vector, the
`error` cell and the world. -/
structure FindRet (σ : Type) where
  result : KEYTAR_OP_RESULT
  credentials : List Credentials
  error : Out StdString
  world : World σ

open KEYTAR_OP_RESULT

/-- The query arrays of `UpdateSecret` and `DeleteSecret` and their entry count:
`queryKeys[3]`, `queryValues[3]`, 3. -/
def secretQueryArgs (serviceStr accountStr : CFString) : CFDictionaryCreateArgs where
  keys := [CFKey.kSecClass, CFKey.kSecAttrServer, CFKey.kSecAttrAccount]
  values := [CFValue.kSecClassInternetPassword, CFValue.string serviceStr,
    CFValue.string accountStr]
  numValues := 3

/-- The attribute arrays of `UpdateSecret` and their entry count:
`attributeKeys[1]`, `attributeValues[1]`, 2. -/
def updateAttributesArgs (secretData : CFData) : CFDictionaryCreateArgs where
  keys := [CFKey.kSecValueData]
  values := [CFValue.data secretData]
  numValues := 2

/-- The arrays of `AddSecret` and their entry count: `keys[4]`, `values[4]`, 4. -/
def addAttributesArgs (serviceStr accountStr : CFString) (secretData : CFData) :
    CFDictionaryCreateArgs where
  keys := [CFKey.kSecClass, CFKey.kSecAttrServer, CFKey.kSecAttrAccount, CFKey.kSecValueData]
  values := [CFValue.kSecClassInternetPassword, CFValue.string serviceStr,
    CFValue.string accountStr, CFValue.data secretData]
  numValues := 4

/-- The arrays of `GetSecret` and their entry count: `keys[5]`, `values[5]`, 5. -/
def getQueryArgs (serviceStr accountStr : CFString) : CFDictionaryCreateArgs where
  keys := [CFKey.kSecClass, CFKey.kSecAttrServer, CFKey.kSecAttrAccount,
    CFKey.kSecMatchLimit, CFKey.kSecReturnData]
  values := [CFValue.kSecClassInternetPassword, CFValue.string serviceStr,
    CFValue.string accountStr, CFValue.kSecMatchLimitOne, CFValue.kCFBooleanTrue]
  numValues := 5

/-- `UpdateSecret`. -/
def UpdateSecret {σ : Type} (N : Native σ) (service account secret : StdString)
    (error : Out StdString) (w : World σ) : OpRet σ :=
  let serviceStr := StdStringToCFString service
  let accountStr := StdStringToCFString account
  let secretStr := StdStringToCFString secret
  let query := CFDictionaryCreate (secretQueryArgs serviceStr accountStr)
  let secretData := CFStringCreateExternalRepresentation secretStr
  let attributes := CFDictionaryCreate (updateAttributesArgs secretData)
  let r := SecItemUpdate N query attributes w
  let status := r.1
  if status = errSecItemNotFound then
    ⟨FAIL_NONFATAL, error, r.2⟩
  else if status ≠ errSecSuccess then
    ⟨FAIL_ERROR, error.assign (errorStatusToString N status), r.2⟩
  else
    ⟨SUCCESS, error, r.2⟩

/-- `AddSecret`. -/
def AddSecret {σ : Type} (N : Native σ) (service account secret : StdString)
    (error : Out StdString) (w : World σ) : OpRet σ :=
  let serviceStr := StdStringToCFString service
  let accountStr := StdStringToCFString account
  let secretStr := StdStringToCFString secret
  let secretData := CFStringCreateExternalRepresentation secretStr
  let attributes := CFDictionaryCreate (addAttributesArgs serviceStr accountStr secretData)
  let r := SecItemAdd N attributes w
  let status := r.1
  if status ≠ errSecSuccess then
    ⟨FAIL_ERROR, error.assign (errorStatusToString N status), r.2⟩
  else
    ⟨SUCCESS, error, r.2⟩

/-- `SetSecret`. -/
def SetSecret {σ : Type} (N : Native σ) (service account secret : StdString)
    (error : Out StdString) (w : World σ) : OpRet σ :=
  let u := UpdateSecret N service account secret error w
  if u.result = FAIL_NONFATAL then
    AddSecret N service account secret u.error u.world
  else if u.result = FAIL_ERROR then
    ⟨FAIL_ERROR, u.error, u.world⟩
  else
    ⟨SUCCESS, u.error, u.world⟩

/-- `GetSecret`. -/
def GetSecret {σ : Type} (N : Native σ) (service account : StdString)
    (secret error : Out StdString) (w : World σ) : GetRet σ :=
  let serviceStr := StdStringToCFString service
  let accountStr := StdStringToCFString account
  let query := CFDictionaryCreate (getQueryArgs serviceStr accountStr)
  let r := SecItemCopyMatching N query w
  let status := r.1
  let item := r.2.1
  if status = errSecItemNotFound then
    ⟨FAIL_NONFATAL, secret, error, r.2.2⟩
  else if status ≠ errSecSuccess then
    ⟨FAIL_ERROR, secret, error.assign (errorStatusToString N status), r.2.2⟩
  else
    let result := CFStringCreateFromExternalRepresentation item.asData
    let stdResult := CFStringToStdString N result
    ⟨SUCCESS, secret.assign stdResult, error, r.2.2⟩

/-- `DeleteSecret`. -/
def DeleteSecret {σ : Type} (N : Native σ) (service account : StdString)
    (error : Out StdString) (w : World σ) : OpRet σ :=
  let serviceStr := StdStringToCFString service
  let accountStr := StdStringToCFString account
  let query := CFDictionaryCreate (secretQueryArgs serviceStr accountStr)
  let r := SecItemDelete N query w
  let status := r.1
  if status = errSecItemNotFound then
    ⟨FAIL_NONFATAL, error, r.2⟩
  else if status = errSecSuccess then
    ⟨SUCCESS, error, r.2⟩
  else
    let errMsg := N.SecCopyErrorMessageString status
    ⟨FAIL_ERROR, error.assign (CFStringToStdString N errMsg), r.2⟩

/-- `AddPassword`. -/
def AddPassword {σ : Type} (N : Native σ) (service account password : StdString)
    (error : Out StdString) (returnNonfatalOnDuplicate : Bool) (w : World σ) : OpRet σ :=
  let r := SecKeychainAddGenericPassword N service account password w
  let status := r.1
  if status = errSecDuplicateItem ∧ returnNonfatalOnDuplicate = true then
    ⟨FAIL_NONFATAL, error, r.2⟩
  else if status ≠ errSecSuccess then
    ⟨FAIL_ERROR, error.assign (errorStatusToString N status), r.2⟩
  else
    ⟨SUCCESS, error, r.2⟩

/-- `GetPassword`. -/
def GetPassword {σ : Type} (N : Native σ) (service account : StdString)
    (password error : Out StdString) (w : World σ) : GetRet σ :=
  let r := SecKeychainFindGenericPassword N service (some account) w
  let status := r.1
  let data := r.2.1
  if status = errSecItemNotFound then
    ⟨FAIL_NONFATAL, password, error, r.2.2.2⟩
  else if status ≠ errSecSuccess then
    ⟨FAIL_ERROR, password, error.assign (errorStatusToString N status), r.2.2.2⟩
  else
    ⟨SUCCESS, password.assign data, error, r.2.2.2⟩

/-- `DeletePassword`. -/
def DeletePassword {σ : Type} (N : Native σ) (service account : StdString)
    (error : Out StdString) (w : World σ) : OpRet σ :=
  let r := SecKeychainFindGenericPassword N service (some account) w
  let status := r.1
  let item := r.2.2.1
  if status = errSecItemNotFound then
    ⟨FAIL_NONFATAL, error, r.2.2.2⟩
  else if status ≠ errSecSuccess then
    ⟨FAIL_ERROR, error.assign (errorStatusToString N status), r.2.2.2⟩
  else
    let d := SecKeychainItemDelete N item r.2.2.2
    let status := d.1
    if status ≠ errSecSuccess then
      ⟨FAIL_ERROR, error.assign (errorStatusToString N status), d.2⟩
    else
      ⟨SUCCESS, error, d.2⟩

/-- `SetPassword`. -/
def SetPassword {σ : Type} (N : Native σ) (service account password : StdString)
    (error : Out StdString) (w : World σ) : OpRet σ :=
  let r := AddPassword N service account password error true w
  if r.result = FAIL_NONFATAL then
    let delResult := DeletePassword N service account r.error r.world
    if delResult.result = FAIL_ERROR then
      ⟨FAIL_ERROR, delResult.error, delResult.world⟩
    else
      AddPassword N service account password delResult.error false delResult.world
  else if r.result = FAIL_ERROR then
    ⟨FAIL_ERROR, r.error, r.world⟩
  else
    ⟨SUCCESS, r.error, r.world⟩

/-- `FindPassword`: the lookup passes account length 0 and a `NULL` account. -/
def FindPassword {σ : Type} (N : Native σ) (service : StdString)
    (password error : Out StdString) (w : World σ) : GetRet σ :=
  let r := SecKeychainFindGenericPassword N service none w
  let status := r.1
  let data := r.2.1
  if status = errSecItemNotFound then
    ⟨FAIL_NONFATAL, password, error, r.2.2.2⟩
  else if status ≠ errSecSuccess then
    ⟨FAIL_ERROR, password, error.assign (errorStatusToString N status), r.2.2.2⟩
  else
    ⟨SUCCESS, password.assign data, error, r.2.2.2⟩

/-- The query dictionary `getCredentialsForItem` builds. -/
def itemQuery (service account : CFString) : CFDictionary :=
  let query := CFDictionaryCreateMutable
  let query := CFDictionaryAddValue query CFKey.kSecAttrService (CFValue.string service)
  let query := CFDictionaryAddValue query CFKey.kSecClass CFValue.kSecClassGenericPassword
  let query := CFDictionaryAddValue query CFKey.kSecMatchLimit CFValue.kSecMatchLimitOne
  let query := CFDictionaryAddValue query CFKey.kSecReturnAttributes CFValue.kCFBooleanTrue
  let query := CFDictionaryAddValue query CFKey.kSecReturnData CFValue.kCFBooleanTrue
  CFDictionaryAddValue query CFKey.kSecAttrAccount (CFValue.string account)

/-- `getCredentialsForItem`. -/
def getCredentialsForItem {σ : Type} (N : Native σ) (item : CFDictionary)
    (w : World σ) : Credentials × World σ :=
  let service := (CFDictionaryGetValue item CFKey.kSecAttrService).asString
  let account := (CFDictionaryGetValue item CFKey.kSecAttrAccount).asString
  let query := itemQuery service account
  let r := SecItemCopyMatching N query w
  let status := r.1
  let result := r.2.1
  if status = errSecSuccess then
    let passwordData := (CFDictionaryGetValue result.asDictionary CFSTR_v_Data).asData
    let password := CFStringCreateFromExternalRepresentation passwordData
    let cred : Credentials := ⟨CFStringToStdString N account, CFStringToStdString N password⟩
    (cred, r.2.2)
  else
    (Credentials.empty, r.2.2)

/-- The query dictionary `FindCredentials` builds. -/
def enumerationQuery (serviceStr : CFString) : CFDictionary :=
  let query := CFDictionaryCreateMutable
  let query := CFDictionaryAddValue query CFKey.kSecClass CFValue.kSecClassGenericPassword
  let query := CFDictionaryAddValue query CFKey.kSecAttrService (CFValue.string serviceStr)
  let query := CFDictionaryAddValue query CFKey.kSecMatchLimit CFValue.kSecMatchLimitAll
  let query := CFDictionaryAddValue query CFKey.kSecReturnRef CFValue.kCFBooleanTrue
  CFDictionaryAddValue query CFKey.kSecReturnAttributes CFValue.kCFBooleanTrue

/-- The loop of `FindCredentials` over the result array, from index `idx` on:
`getCredentialsForItem` on each item, then `push_back`. -/
def pushCredentials {σ : Type} (N : Native σ) :
    List CFDictionary → List Credentials → World σ → List Credentials × World σ
  | [], credentials, w => (credentials, w)
  | item :: rest, credentials, w =>
    let c := getCredentialsForItem N item w
    pushCredentials N rest (credentials ++ [c.1]) c.2

/-- `FindCredentials`. -/
def FindCredentials {σ : Type} (N : Native σ) (service : StdString)
    (credentials : List Credentials) (error : Out StdString) (w : World σ) : FindRet σ :=
  let serviceStr := CFStringCreateWithCString service
  let query := enumerationQuery serviceStr
  let r := SecItemCopyMatching N query w
  let status := r.1
  let result := r.2.1
  if status = errSecSuccess then
    let resultArray := result.asArray
    let p := pushCredentials N resultArray credentials r.2.2
    ⟨SUCCESS, p.1, error, p.2⟩
  else if status = errSecItemNotFound then
    ⟨FAIL_NONFATAL, credentials, error, r.2.2⟩
  else
    ⟨FAIL_ERROR, credentials, error.assign (errorStatusToString N status), r.2.2⟩

/-! ## A scripted native layer

The native state is the list of statuses the coming calls will report; a call
past the end of the list reports `errSecSuccess`.  The outputs of the lookups
are fixed.  It realises every sequence of native statuses. -/

/-- The state of the scripted native layer. -/
structure Script where
  statuses : List OSStatus
  found : CFTypeRef
  data : StdString
  item : SecKeychainItemRef

/-- The status the next call reports, and the rest of the script. -/
def Script.next (s : Script) : OSStatus × Script :=
  (s.statuses.headD errSecSuccess, { s with statuses := s.statuses.tail })

/-- The scripted native layer: `ptr` tells for which strings the direct pointer
is available and `msg` is the message table. -/
def scripted (ptr : CFString → Bool) (msg : OSStatus → CFString) : Native Script where
  CFStringGetCStringPtr := ptr
  SecCopyErrorMessageString := msg
  SecItemUpdate := fun _ _ s => s.next
  SecItemAdd := fun _ s => s.next
  SecItemCopyMatching := fun _ s => (s.next.1, s.found, s.next.2)
  SecItemDelete := fun _ s => s.next
  SecKeychainAddGenericPassword := fun _ _ _ s => s.next
  SecKeychainFindGenericPassword := fun _ _ s => (s.next.1, s.data, s.item, s.next.2)
  SecKeychainItemDelete := fun _ s => s.next

/-- A message table: the text of `SecCopyErrorMessageString` for the statuses
used in the examples. -/
def messageOf (status : OSStatus) : CFString :=
  if status = errSecDuplicateItem then "The specified item already exists in the keychain.".toList
  else if status = errSecItemNotFound then
    "The specified item could not be found in the keychain.".toList
  else if status = -25293 then
    "The user name or passphrase you entered is not correct.".toList
  else "OSStatus error".toList

/-! ## A reference keychain

The Keychain Services behaviour the round-trip properties rely on: a keychain
holds internet-password items keyed by (server, account) and generic-password
items keyed by (service, account); an insert under a key already present fails
with `errSecDuplicateItem`; an update, lookup or delete that matches nothing
fails with `errSecItemNotFound`; no call fails for another reason. -/

/-- One stored item: its server (internet password) or service (generic
password), its account, and its data. -/
structure KeychainItem where
  service : List Char
  account : List Char
  data : List Char
  deriving DecidableEq, Repr

/-- The item carries the compound key `(service, account)`. -/
def KeychainItem.hasKey (service account : List Char) (it : KeychainItem) : Bool :=
  decide (it.service = service ∧ it.account = account)

/-- The reference keychain: the items of the two classes, in insertion order. -/
structure Keychain where
  internet : List KeychainItem
  generic : List KeychainItem
  deriving DecidableEq, Repr

/-- At most one item per compound key among `items`. -/
def uniqueKeys (items : List KeychainItem) : Prop :=
  (items.map (fun it => (it.service, it.account))).Nodup

instance (items : List KeychainItem) : Decidable (uniqueKeys items) := by
  unfold uniqueKeys; infer_instance

/-- The central invariant of the data model: no two items of a class share a
compound key. -/
def Keychain.WellFormed (k : Keychain) : Prop :=
  uniqueKeys k.internet ∧ uniqueKeys k.generic

instance (k : Keychain) : Decidable k.WellFormed := by
  unfold Keychain.WellFormed; infer_instance

/-- The items of the class a dictionary names under `kSecClass`. -/
def Keychain.itemsOf (k : Keychain) (d : CFDictionary) : List KeychainItem :=
  match CFDictionaryGetValue d CFKey.kSecClass with
  | CFValue.kSecClassInternetPassword => k.internet
  | CFValue.kSecClassGenericPassword => k.generic
  | _ => []

/-- Replaces the items of the class a dictionary names under `kSecClass`. -/
def Keychain.withItemsOf (k : Keychain) (d : CFDictionary) (items : List KeychainItem) :
    Keychain :=
  match CFDictionaryGetValue d CFKey.kSecClass with
  | CFValue.kSecClassInternetPassword => { k with internet := items }
  | CFValue.kSecClassGenericPassword => { k with generic := items }
  | _ => k

/-- The key that holds the service name in a dictionary of the given class:
`kSecAttrServer` for internet passwords, `kSecAttrService` otherwise. -/
def serviceKeyOf (d : CFDictionary) : CFKey :=
  match CFDictionaryGetValue d CFKey.kSecClass with
  | CFValue.kSecClassInternetPassword => CFKey.kSecAttrServer
  | _ => CFKey.kSecAttrService

/-- An attribute constraint of a query holds of a text: the query gives no
string under the key, or gives this text. -/
def attrMatches (q : CFDictionary) (key : CFKey) (text : List Char) : Bool :=
  match CFDictionaryGetValue q key with
  | CFValue.string s => decide (text = s)
  | _ => true

/-- The item satisfies the service and account constraints of a query. -/
def queryMatches (q : CFDictionary) (it : KeychainItem) : Bool :=
  attrMatches q (serviceKeyOf q) it.service && attrMatches q CFKey.kSecAttrAccount it.account

/-- The attribute dictionary returned for an item: its service and account,
and its data when the query asks for it with `kSecReturnData`. -/
def itemAttributes (q : CFDictionary) (it : KeychainItem) : CFDictionary :=
  [(serviceKeyOf q, CFValue.string it.service), (CFKey.kSecAttrAccount, CFValue.string it.account)]
    ++ (if CFDictionaryGetValue q CFKey.kSecReturnData = CFValue.kCFBooleanTrue then
          [(CFKey.kSecValueData, CFValue.data it.data)]
        else [])

/-- Reference `SecItemUpdate`: the items the query matches get the data given
under `kSecValueData`.  Entries of the attribute dictionary under other keys,
the one `UpdateSecret` reads out of bounds among them, are not consulted. -/
def Keychain.SecItemUpdate (query attributes : CFDictionary) (k : Keychain) :
    OSStatus × Keychain :=
  let items := k.itemsOf query
  if items.any (queryMatches query) then
    match CFDictionaryGetValue attributes CFKey.kSecValueData with
    | CFValue.data d =>
      (errSecSuccess, k.withItemsOf query
        (items.map (fun it => if queryMatches query it then { it with data := d } else it)))
    | _ => (errSecSuccess, k)
  else
    (errSecItemNotFound, k)

/-- Reference `SecItemAdd`: a new item with the given service, account and
data, unless the key is taken. -/
def Keychain.SecItemAdd (attributes : CFDictionary) (k : Keychain) : OSStatus × Keychain :=
  let items := k.itemsOf attributes
  let service := (CFDictionaryGetValue attributes (serviceKeyOf attributes)).asString
  let account := (CFDictionaryGetValue attributes CFKey.kSecAttrAccount).asString
  let data := (CFDictionaryGetValue attributes CFKey.kSecValueData).asData
  if items.any (KeychainItem.hasKey service account) then
    (errSecDuplicateItem, k)
  else
    (errSecSuccess, k.withItemsOf attributes (items ++ [⟨service, account, data⟩]))

/-- Reference `SecItemCopyMatching`: all matches as attribute dictionaries
under `kSecMatchLimitAll`, else the first match, as its attribute dictionary
under `kSecReturnAttributes` and as its data under `kSecReturnData` alone. -/
def Keychain.SecItemCopyMatching (query : CFDictionary) (k : Keychain) :
    OSStatus × CFTypeRef × Keychain :=
  match (k.itemsOf query).filter (queryMatches query) with
  | [] => (errSecItemNotFound, CFTypeRef.null, k)
  | it :: rest =>
    if CFDictionaryGetValue query CFKey.kSecMatchLimit = CFValue.kSecMatchLimitAll then
      (errSecSuccess, CFTypeRef.array ((it :: rest).map (itemAttributes query)), k)
    else if CFDictionaryGetValue query CFKey.kSecReturnAttributes = CFValue.kCFBooleanTrue then
      (errSecSuccess, CFTypeRef.dictionary (itemAttributes query it), k)
    else if CFDictionaryGetValue query CFKey.kSecReturnData = CFValue.kCFBooleanTrue then
      (errSecSuccess, CFTypeRef.data it.data, k)
    else
      (errSecSuccess, CFTypeRef.null, k)

/-- Reference `SecItemDelete`: removes the items the query matches. -/
def Keychain.SecItemDelete (query : CFDictionary) (k : Keychain) : OSStatus × Keychain :=
  let items := k.itemsOf query
  if items.any (queryMatches query) then
    (errSecSuccess, k.withItemsOf query (items.filter (fun it => !queryMatches query it)))
  else
    (errSecItemNotFound, k)

/-- Reference `SecKeychainAddGenericPassword`. -/
def Keychain.SecKeychainAddGenericPassword (service account password : StdString)
    (k : Keychain) : OSStatus × Keychain :=
  if k.generic.any (KeychainItem.hasKey service account) then
    (errSecDuplicateItem, k)
  else
    (errSecSuccess, { k with generic := k.generic ++ [⟨service, account, password⟩] })

/-- Reference `SecKeychainFindGenericPassword`: the first generic password of
the service, under the account when one is passed. -/
def Keychain.SecKeychainFindGenericPassword (service : StdString) (account : Option StdString)
    (k : Keychain) : OSStatus × StdString × SecKeychainItemRef × Keychain :=
  match k.generic.find? (fun it =>
      decide (it.service = service) && (account.isNone || decide (account = some it.account))) with
  | some it => (errSecSuccess, it.data, ⟨it.service, it.account⟩, k)
  | none => (errSecItemNotFound, [], ⟨[], []⟩, k)

/-- Reference `SecKeychainItemDelete`: removes the item the reference denotes. -/
def Keychain.SecKeychainItemDelete (item : SecKeychainItemRef) (k : Keychain) :
    OSStatus × Keychain :=
  if k.generic.any (KeychainItem.hasKey item.service item.account) then
    (errSecSuccess,
      { k with generic := k.generic.eraseP (KeychainItem.hasKey item.service item.account) })
  else
    (errSecItemNotFound, k)

/-- The reference native layer over a `Keychain`. -/
def reference (ptr : CFString → Bool) (msg : OSStatus → CFString) : Native Keychain where
  CFStringGetCStringPtr := ptr
  SecCopyErrorMessageString := msg
  SecItemUpdate := Keychain.SecItemUpdate
  SecItemAdd := Keychain.SecItemAdd
  SecItemCopyMatching := Keychain.SecItemCopyMatching
  SecItemDelete := Keychain.SecItemDelete
  SecKeychainAddGenericPassword := Keychain.SecKeychainAddGenericPassword
  SecKeychainFindGenericPassword := Keychain.SecKeychainFindGenericPassword
  SecKeychainItemDelete := Keychain.SecKeychainItemDelete

/-- The keychain with no items. -/
def Keychain.empty : Keychain := ⟨[], []⟩

/-- A fresh out-parameter holding the empty string. -/
def Out.fresh : Out StdString := ⟨[], 0⟩

/-- A direct-pointer oracle: available exactly for all-ASCII strings. -/
def asciiOnly (s : CFString) : Bool := s.all (fun c => decide (c.toNat < 0x80))

/-! ## Definitions the statements name -/

/-- The query dictionary `UpdateSecret` and `DeleteSecret` build for
`(service, account)`. -/
def secretQuery (service account : StdString) : CFDictionary :=
  CFDictionaryCreate (secretQueryArgs (StdStringToCFString service) (StdStringToCFString account))

/-- The attribute dictionary `UpdateSecret` builds for `secret`: two entries,
the populated slot 0 (`kSecValueData`, the secret's data) and slot 1, read
beyond `attributeKeys[1]` and `attributeValues[1]`. -/
def updateAttributes (secret : StdString) : CFDictionary :=
  CFDictionaryCreate (updateAttributesArgs
    (CFStringCreateExternalRepresentation (StdStringToCFString secret)))

/-- The attribute dictionary `AddSecret` builds for `(service, account, secret)`. -/
def addAttributes (service account secret : StdString) : CFDictionary :=
  CFDictionaryCreate (addAttributesArgs (StdStringToCFString service)
    (StdStringToCFString account)
    (CFStringCreateExternalRepresentation (StdStringToCFString secret)))

/-- The query dictionary `GetSecret` builds for `(service, account)`. -/
def getQuery (service account : StdString) : CFDictionary :=
  CFDictionaryCreate (getQueryArgs (StdStringToCFString service) (StdStringToCFString account))

/-- A scripted world that will report the given statuses, with an empty log. -/
def scriptWorld (statuses : List OSStatus) : World Script :=
  ⟨⟨statuses, CFTypeRef.null, [], ⟨[], []⟩⟩, []⟩

/-- The scripted native layer used in the examples. -/
def scriptedNative : Native Script := scripted asciiOnly messageOf

/-- `errSecAuthFailed` of the Security framework, a status that is neither
success, nor not-found, nor duplicate. -/
def errSecAuthFailed : OSStatus := -25293

/-- A scripted world whose enumeration yields one item, `("svc", "acct")`, and
that will report the given statuses. -/
def enumerationWorld (statuses : List OSStatus) : World Script :=
  ⟨⟨statuses,
    CFTypeRef.array [[(CFKey.kSecAttrService, CFValue.string "svc".toList),
      (CFKey.kSecAttrAccount, CFValue.string "acct".toList)]],
    [], ⟨[], []⟩⟩, []⟩

/-- The error discipline of an operation run on the cell `error`: either it
returned `FAIL_ERROR` and assigned the cell exactly once, or it returned another
result and left the cell as it was. -/
def WritesOnError {σ : Type} (error : Out StdString) (r : OpRet σ) : Prop :=
  (r.result = FAIL_ERROR ∧ r.error.writes = error.writes + 1) ∨
  (r.result ≠ FAIL_ERROR ∧ r.error = error)

instance {σ : Type} (error : Out StdString) (r : OpRet σ) : Decidable (WritesOnError error r) := by
  unfold WritesOnError; infer_instance

/-- The items after storing `data` under `(service, account)`: the matching
items updated in place, or a new item appended when none matches. -/
def setItem (service account data : List Char) (items : List KeychainItem) :
    List KeychainItem :=
  if items.any (KeychainItem.hasKey service account) then
    items.map (fun it => if it.hasKey service account then { it with data := data } else it)
  else
    items ++ [⟨service, account, data⟩]

/-- The reference native layer used in the examples: the direct pointer is
available exactly for all-ASCII strings. -/
def referenceNative : Native Keychain := reference asciiOnly messageOf

/-- A keychain holding one internet password and one generic password under
`("svc", "acct")`. -/
def sampleKeychain : Keychain :=
  ⟨[⟨"svc".toList, "acct".toList, "s3cret".toList⟩], [⟨"svc".toList, "acct".toList, "pw".toList⟩]⟩

/-- The text survives `CFStringToStdString`: it has no NUL, and either its
direct pointer is available or its UTF-8 form with the terminating NUL fits the
`length * 2 + 1` bytes of the fallback buffer. -/
def ConvertsExactly {σ : Type} (N : Native σ) (t : List Char) : Prop :=
  NUL ∉ t ∧ (N.CFStringGetCStringPtr t = true ∨ utf8Length t ≤ CFStringGetLength t * 2)

instance {σ : Type} (N : Native σ) (t : List Char) : Decidable (ConvertsExactly N t) := by
  unfold ConvertsExactly; infer_instance

/-- The entry `FindCredentials` produces for a stored item. -/
def credentialsOf {σ : Type} (N : Native σ) (it : KeychainItem) : Credentials :=
  ⟨CFStringToStdString N it.account, CFStringToStdString N it.data⟩

/-- Runs `SetPassword(service, account, password)` for each `(account, password)`
pair in turn, each call with a fresh `error` cell; yields the results in call
order and the final world. -/
def SetPasswordEach {σ : Type} (N : Native σ) (service : StdString) :
    List (StdString × StdString) → World σ → List KEYTAR_OP_RESULT × World σ
  | [], w => ([], w)
  | e :: rest, w =>
    let r := SetPassword N service e.1 e.2 Out.fresh w
    let t := SetPasswordEach N service rest r.world
    (r.result :: t.1, t.2)

/-- The slots `CFDictionaryCreate` reads from the key array and from the value
array: the indices `0 .. numValues - 1`. -/
def CFDictionaryCreateArgs.slotsRead (a : CFDictionaryCreateArgs) : List Nat :=
  List.range a.numValues

/-- The entry count of a `CFDictionaryCreate` call fits its arrays: it is at
most the declared length of the key array and of the value array, and equals
the number of populated slots (every declared slot of the backend's arrays is
populated, so that number is the arrays' length). -/
def CFDictionaryCreateArgs.CountFits (a : CFDictionaryCreateArgs) : Prop :=
  a.numValues ≤ a.keys.length ∧ a.numValues ≤ a.values.length ∧
  a.numValues = a.keys.length ∧ a.numValues = a.values.length

instance (a : CFDictionaryCreateArgs) : Decidable a.CountFits := by
  unfold CFDictionaryCreateArgs.CountFits; infer_instance

/-- Every slot read while building the dictionary lies inside both arrays. -/
def CFDictionaryCreateArgs.ReadsInBounds (a : CFDictionaryCreateArgs) : Prop :=
  ∀ i ∈ a.slotsRead, i < a.keys.length ∧ i < a.values.length

instance (a : CFDictionaryCreateArgs) : Decidable a.ReadsInBounds := by
  unfold CFDictionaryCreateArgs.ReadsInBounds; infer_instance

/-! ## Theorems -/

/-- C1. `SetSecret` first issues the in-place update `SecItemUpdate`, on the
query for `(service, account)` and the attribute dictionary `UpdateSecret`
builds with entry count 2: the secret's data under `kSecValueData`, and the
entry read from slot 1 beyond the one-slot arrays.  If its
status is success, the result is `SUCCESS`, `error` is untouched and the update
is the only native call.  If its status is item-not-found, the result and the
`error` cell are those of `AddSecret` for the same `(service, account, secret)`
run after the update, and the native calls are the update followed by exactly
one `SecItemAdd`.  For every other status the result is `FAIL_ERROR`, `error`
holds the message decoded from the update's status, and the update is the only
native call. -/
theorem SetSecret_update_then_insert {σ : Type} (N : Native σ)
    (service account secret : StdString) (error : Out StdString) (w : World σ) :
    let status := (N.SecItemUpdate (secretQuery service account) (updateAttributes secret)
      w.keychain).1
    let k1 := (N.SecItemUpdate (secretQuery service account) (updateAttributes secret)
      w.keychain).2
    let update := NativeCall.SecItemUpdate (secretQuery service account) (updateAttributes secret)
    let insert := NativeCall.SecItemAdd (addAttributes service account secret)
    let r := SetSecret N service account secret error w
    (status = errSecSuccess →
      r.result = SUCCESS ∧ r.error = error ∧ r.world.calls = w.calls ++ [update]) ∧
    (status = errSecItemNotFound →
      r.result = (AddSecret N service account secret error ⟨k1, w.calls ++ [update]⟩).result ∧
      r.error = (AddSecret N service account secret error ⟨k1, w.calls ++ [update]⟩).error ∧
      r.world.calls = w.calls ++ [update, insert]) ∧
    (status ≠ errSecSuccess → status ≠ errSecItemNotFound →
      r.result = FAIL_ERROR ∧ r.error = error.assign (errorStatusToString N status) ∧
      r.world.calls = w.calls ++ [update]) ∧
    updateAttributes secret =
      [(CFKey.kSecValueData,
          CFValue.data (CFStringCreateExternalRepresentation (StdStringToCFString secret))),
        (CFKey.outOfBounds 1, CFValue.outOfBounds 1)] := by
  intro status k1 update insert r
  refine ⟨?_, ?_, ?_, rfl⟩
  · intro h
    have h' : (N.SecItemUpdate (secretQuery service account) (updateAttributes secret)
      w.keychain).1 = errSecSuccess := h
    simp [r, update, SetSecret, UpdateSecret, keytar.SecItemUpdate, secretQuery,
      updateAttributes] at h' ⊢
    simp [h', errSecSuccess, errSecItemNotFound]
  · intro h
    have h' : (N.SecItemUpdate (secretQuery service account) (updateAttributes secret)
      w.keychain).1 = errSecItemNotFound := h
    simp [r, update, insert, k1, SetSecret, UpdateSecret, keytar.SecItemUpdate, secretQuery,
      updateAttributes] at h' ⊢
    simp [h', AddSecret, keytar.SecItemAdd, addAttributes]
    split_ifs <;> simp
  · intro h1 h2
    have h1' : (N.SecItemUpdate (secretQuery service account) (updateAttributes secret)
      w.keychain).1 ≠ errSecSuccess := h1
    have h2' : (N.SecItemUpdate (secretQuery service account) (updateAttributes secret)
      w.keychain).1 ≠ errSecItemNotFound := h2
    simp [r, update, status, SetSecret, UpdateSecret, keytar.SecItemUpdate, secretQuery,
      updateAttributes] at h1' h2' ⊢
    simp [h1', h2']

/-- C1, at concrete inputs: an update reporting success; an update reporting
item-not-found followed by an insert reporting a duplicate; an update reporting
an authorisation failure; and the two-entry attribute dictionary of the update
call. -/
theorem SetSecret_update_then_insert_witness :
    ((SetSecret scriptedNative "svc".toList "acct".toList "s3cret".toList Out.fresh
        (scriptWorld [errSecSuccess])).result = SUCCESS ∧
      (SetSecret scriptedNative "svc".toList "acct".toList "s3cret".toList Out.fresh
        (scriptWorld [errSecSuccess])).world.calls
        = [NativeCall.SecItemUpdate (secretQuery "svc".toList "acct".toList)
            (updateAttributes "s3cret".toList)]) ∧
    ((SetSecret scriptedNative "svc".toList "acct".toList "s3cret".toList Out.fresh
        (scriptWorld [errSecItemNotFound, errSecDuplicateItem])).result = FAIL_ERROR ∧
      (SetSecret scriptedNative "svc".toList "acct".toList "s3cret".toList Out.fresh
        (scriptWorld [errSecItemNotFound, errSecDuplicateItem])).error
        = Out.fresh.assign (messageOf errSecDuplicateItem) ∧
      (SetSecret scriptedNative "svc".toList "acct".toList "s3cret".toList Out.fresh
        (scriptWorld [errSecItemNotFound, errSecDuplicateItem])).world.calls
        = [NativeCall.SecItemUpdate (secretQuery "svc".toList "acct".toList)
            (updateAttributes "s3cret".toList),
           NativeCall.SecItemAdd (addAttributes "svc".toList "acct".toList "s3cret".toList)]) ∧
    ((SetSecret scriptedNative "svc".toList "acct".toList "s3cret".toList Out.fresh
        (scriptWorld [errSecAuthFailed])).result = FAIL_ERROR ∧
      (SetSecret scriptedNative "svc".toList "acct".toList "s3cret".toList Out.fresh
        (scriptWorld [errSecAuthFailed])).error
        = Out.fresh.assign (messageOf errSecAuthFailed)) ∧
    updateAttributes "s3cret".toList =
      [(CFKey.kSecValueData, CFValue.data "s3cret".toList),
        (CFKey.outOfBounds 1, CFValue.outOfBounds 1)] := by
  refine ⟨?_, ?_, ?_, ?_⟩
  · have h := (SetSecret_update_then_insert scriptedNative "svc".toList "acct".toList
      "s3cret".toList Out.fresh (scriptWorld [errSecSuccess])).1 (by decide)
    exact ⟨h.1, h.2.2⟩
  · have h := (SetSecret_update_then_insert scriptedNative "svc".toList "acct".toList
      "s3cret".toList Out.fresh (scriptWorld [errSecItemNotFound, errSecDuplicateItem])).2.1
      (by decide)
    exact ⟨h.1.trans (by decide), h.2.1.trans (by decide), h.2.2⟩
  · have h := (SetSecret_update_then_insert scriptedNative "svc".toList "acct".toList
      "s3cret".toList Out.fresh (scriptWorld [errSecAuthFailed])).2.2.1 (by decide) (by decide)
    exact ⟨h.1, h.2.1.trans (by decide)⟩
  · exact (SetSecret_update_then_insert scriptedNative "svc".toList "acct".toList
      "s3cret".toList Out.fresh (scriptWorld [errSecSuccess])).2.2.2.trans (by decide)

/-- C2. `SetPassword` first issues an insert (`AddPassword` with duplicate
detection enabled).  If that insert reports success the result is `SUCCESS` and
the insert is the only native call.  If it reports a status that is neither
success nor duplicate the result is `FAIL_ERROR` with that status's message and
the insert is the only native call.  If it reports a duplicate, `DeletePassword`
runs once for the same key (its native calls are the lookup, and the item delete
when the lookup succeeded); when it returns `FAIL_ERROR` the result is
`FAIL_ERROR` with the delete's error cell and no further native call; otherwise
the delete left `error` untouched, exactly one more insert is issued, and the
result is `SUCCESS` when that insert reports success and `FAIL_ERROR` with its
status's message for every other status (a duplicate included). -/
theorem SetPassword_insert_delete_reinsert {σ : Type} (N : Native σ)
    (service account password : StdString) (error : Out StdString) (w : World σ) :
    let first := SecKeychainAddGenericPassword N service account password w
    let insert := NativeCall.SecKeychainAddGenericPassword service account password
    let find := NativeCall.SecKeychainFindGenericPassword service (some account)
    let found := SecKeychainFindGenericPassword N service (some account) first.2
    let del := DeletePassword N service account error first.2
    let second := SecKeychainAddGenericPassword N service account password del.world
    let r := SetPassword N service account password error w
    (first.1 = errSecSuccess →
      r.result = SUCCESS ∧ r.error = error ∧ r.world.calls = w.calls ++ [insert]) ∧
    (first.1 ≠ errSecSuccess → first.1 ≠ errSecDuplicateItem →
      r.result = FAIL_ERROR ∧ r.error = error.assign (errorStatusToString N first.1) ∧
      r.world.calls = w.calls ++ [insert]) ∧
    (first.1 = errSecDuplicateItem →
      (del.world.calls = w.calls ++ [insert, find] ∨
        del.world.calls =
          w.calls ++ [insert, find, NativeCall.SecKeychainItemDelete found.2.2.1]) ∧
      (del.result = FAIL_ERROR →
        r.result = FAIL_ERROR ∧ r.error = del.error ∧ del.error.writes = error.writes + 1 ∧
        r.world.calls = del.world.calls) ∧
      (del.result ≠ FAIL_ERROR →
        del.error = error ∧ r.world.calls = del.world.calls ++ [insert] ∧
        (second.1 = errSecSuccess → r.result = SUCCESS ∧ r.error = error) ∧
        (second.1 ≠ errSecSuccess →
          r.result = FAIL_ERROR ∧ r.error = error.assign (errorStatusToString N second.1)))) := by
  intro first insert find found del second r
  refine ⟨?_, ?_, ?_⟩
  · intro h
    have h' : (SecKeychainAddGenericPassword N service account password w).1 = errSecSuccess := h
    simp [r, insert, SetPassword, AddPassword, h', errSecSuccess, errSecDuplicateItem]
    simp [keytar.SecKeychainAddGenericPassword]
  · intro h1 h2
    have h1' : (SecKeychainAddGenericPassword N service account password w).1 ≠ errSecSuccess := h1
    have h2' : (SecKeychainAddGenericPassword N service account password w).1 ≠ errSecDuplicateItem := h2
    simp [r, insert, first, SetPassword, AddPassword, h1', h2']
    simp [keytar.SecKeychainAddGenericPassword]
  · intro h
    have h' : (SecKeychainAddGenericPassword N service account password w).1 = errSecDuplicateItem := h
    have hw : (SecKeychainAddGenericPassword N service account password w).2.calls
        = w.calls ++ [insert] := by
      simp [keytar.SecKeychainAddGenericPassword, insert]
    refine ⟨?_, ?_, ?_⟩
    · simp only [del, first, DeletePassword]
      split_ifs
      · left; simp [keytar.SecKeychainFindGenericPassword, hw, find]
      · left; simp [keytar.SecKeychainFindGenericPassword, hw, find]
      · right; simp [keytar.SecKeychainFindGenericPassword, keytar.SecKeychainItemDelete, hw, find, found, first]
      · right; simp [keytar.SecKeychainFindGenericPassword, keytar.SecKeychainItemDelete, hw, find, found, first]
    · intro hd
      have hd' : (DeletePassword N service account error
        (SecKeychainAddGenericPassword N service account password w).2).result = FAIL_ERROR := hd
      refine ⟨?_, ?_, ?_, ?_⟩
      · simp [r, SetPassword, AddPassword, h', hd']
      · simp [r, SetPassword, AddPassword, h', hd', del, first]
      · revert hd'
        simp only [del, first, DeletePassword]
        split_ifs <;> simp [Out.assign]
      · simp [r, SetPassword, AddPassword, h', hd', del, first]
    · intro hd
      have hd' : (DeletePassword N service account error
        (SecKeychainAddGenericPassword N service account password w).2).result ≠ FAIL_ERROR := hd
      have he : del.error = error := by
        revert hd'
        simp only [del, first, DeletePassword]
        split_ifs <;> simp
      have he' : (DeletePassword N service account error
        (SecKeychainAddGenericPassword N service account password w).2).error = error := he
      refine ⟨he, ?_, ?_, ?_⟩
      · simp [r, SetPassword, AddPassword, h', hd', del, first, insert]
        split_ifs <;> simp [keytar.SecKeychainAddGenericPassword]
      · intro h2
        have h2' : (SecKeychainAddGenericPassword N service account password
          (DeletePassword N service account error
            (SecKeychainAddGenericPassword N service account password w).2).world).1
            = errSecSuccess := h2
        simp [r, SetPassword, AddPassword, h', hd', h2', he', errSecSuccess, errSecDuplicateItem]
      · intro h2
        have h2' : (SecKeychainAddGenericPassword N service account password
          (DeletePassword N service account error
            (SecKeychainAddGenericPassword N service account password w).2).world).1
            ≠ errSecSuccess := h2
        simp [r, SetPassword, AddPassword, h', hd', h2', he', second, del, first]

/-- C2, at concrete inputs: a duplicate, a lookup and an item delete that
succeed, and a second insert that succeeds; and a duplicate followed by a
lookup that fails with an authorisation failure. -/
theorem SetPassword_insert_delete_reinsert_witness :
    ((SetPassword scriptedNative "svc".toList "acct".toList "pw".toList Out.fresh
        (scriptWorld [errSecDuplicateItem, errSecSuccess, errSecSuccess, errSecSuccess])).result
        = SUCCESS ∧
      (SetPassword scriptedNative "svc".toList "acct".toList "pw".toList Out.fresh
        (scriptWorld [errSecDuplicateItem, errSecSuccess, errSecSuccess, errSecSuccess])).world.calls
        = [NativeCall.SecKeychainAddGenericPassword "svc".toList "acct".toList "pw".toList,
           NativeCall.SecKeychainFindGenericPassword "svc".toList (some "acct".toList),
           NativeCall.SecKeychainItemDelete ⟨[], []⟩,
           NativeCall.SecKeychainAddGenericPassword "svc".toList "acct".toList "pw".toList]) ∧
    ((SetPassword scriptedNative "svc".toList "acct".toList "pw".toList Out.fresh
        (scriptWorld [errSecDuplicateItem, errSecAuthFailed])).result = FAIL_ERROR ∧
      (SetPassword scriptedNative "svc".toList "acct".toList "pw".toList Out.fresh
        (scriptWorld [errSecDuplicateItem, errSecAuthFailed])).error
        = Out.fresh.assign (messageOf errSecAuthFailed) ∧
      (SetPassword scriptedNative "svc".toList "acct".toList "pw".toList Out.fresh
        (scriptWorld [errSecDuplicateItem, errSecAuthFailed])).world.calls
        = [NativeCall.SecKeychainAddGenericPassword "svc".toList "acct".toList "pw".toList,
           NativeCall.SecKeychainFindGenericPassword "svc".toList (some "acct".toList)]) := by
  refine ⟨?_, ?_⟩
  · have h := ((SetPassword_insert_delete_reinsert scriptedNative "svc".toList "acct".toList
      "pw".toList Out.fresh
      (scriptWorld [errSecDuplicateItem, errSecSuccess, errSecSuccess, errSecSuccess])).2.2
      (by decide)).2.2 (by decide)
    exact ⟨(h.2.2.1 (by decide)).1, h.2.1.trans (by decide)⟩
  · have h := ((SetPassword_insert_delete_reinsert scriptedNative "svc".toList "acct".toList
      "pw".toList Out.fresh (scriptWorld [errSecDuplicateItem, errSecAuthFailed])).2.2
      (by decide)).2.1 (by decide)
    exact ⟨h.1, h.2.1.trans (by decide), h.2.2.2.trans (by decide)⟩

/-! ### Error discipline -/

theorem UpdateSecret_writesOnError {σ : Type} (N : Native σ)
    (service account secret : StdString) (error : Out StdString) (w : World σ) :
    WritesOnError error (UpdateSecret N service account secret error w) := by
  simp only [UpdateSecret, WritesOnError]
  split_ifs <;> simp [Out.assign]

theorem AddSecret_writesOnError {σ : Type} (N : Native σ)
    (service account secret : StdString) (error : Out StdString) (w : World σ) :
    WritesOnError error (AddSecret N service account secret error w) ∧
    (AddSecret N service account secret error w).result ≠ FAIL_NONFATAL := by
  simp only [AddSecret, WritesOnError]
  split_ifs <;> simp [Out.assign]

theorem AddPassword_writesOnError {σ : Type} (N : Native σ)
    (service account password : StdString) (error : Out StdString) (b : Bool) (w : World σ) :
    WritesOnError error (AddPassword N service account password error b w) ∧
    (b = false → (AddPassword N service account password error b w).result ≠ FAIL_NONFATAL) := by
  simp only [AddPassword, WritesOnError]
  split_ifs <;> simp_all [Out.assign]

theorem DeletePassword_writesOnError {σ : Type} (N : Native σ)
    (service account : StdString) (error : Out StdString) (w : World σ) :
    WritesOnError error (DeletePassword N service account error w) := by
  simp only [DeletePassword, WritesOnError]
  split_ifs <;> simp [Out.assign]

theorem WritesOnError.of_eq {σ : Type} {error error1 : Out StdString} {r : OpRet σ}
    (h : WritesOnError error1 r) (e : error1 = error) : WritesOnError error r := by
  subst e; exact h

theorem SetSecret_writesOnError {σ : Type} (N : Native σ)
    (service account secret : StdString) (error : Out StdString) (w : World σ) :
    WritesOnError error (SetSecret N service account secret error w) ∧
    (SetSecret N service account secret error w).result ≠ FAIL_NONFATAL := by
  have hu := UpdateSecret_writesOnError N service account secret error w
  have ha := AddSecret_writesOnError N service account secret
    (UpdateSecret N service account secret error w).error
    (UpdateSecret N service account secret error w).world
  simp only [SetSecret]
  split_ifs with h1 h2
  · rcases hu with ⟨hu1, _⟩ | ⟨_, hu2⟩
    · simp [h1] at hu1
    · exact ⟨ha.1.of_eq hu2, ha.2⟩
  · rcases hu with ⟨_, hu2⟩ | ⟨hu1, _⟩
    · exact ⟨Or.inl ⟨rfl, hu2⟩, by simp⟩
    · exact absurd h2 hu1
  · rcases hu with ⟨hu1, _⟩ | ⟨_, hu2⟩
    · exact absurd hu1 h2
    · exact ⟨Or.inr ⟨by simp, hu2⟩, by simp⟩

theorem SetPassword_writesOnError {σ : Type} (N : Native σ)
    (service account password : StdString) (error : Out StdString) (w : World σ) :
    WritesOnError error (SetPassword N service account password error w) ∧
    (SetPassword N service account password error w).result ≠ FAIL_NONFATAL := by
  have h1 := (AddPassword_writesOnError N service account password error true w).1
  have hd := DeletePassword_writesOnError N service account
    (AddPassword N service account password error true w).error
    (AddPassword N service account password error true w).world
  have h2 := AddPassword_writesOnError N service account password
    (DeletePassword N service account
      (AddPassword N service account password error true w).error
      (AddPassword N service account password error true w).world).error false
    (DeletePassword N service account
      (AddPassword N service account password error true w).error
      (AddPassword N service account password error true w).world).world
  simp only [SetPassword]
  split_ifs with c1 c2 c3
  · rcases h1 with ⟨h1a, _⟩ | ⟨_, h1b⟩
    · simp [c1] at h1a
    · rcases hd.of_eq h1b with ⟨_, hd2⟩ | ⟨hd1, _⟩
      · exact ⟨Or.inl ⟨rfl, hd2⟩, by simp⟩
      · exact absurd c2 hd1
  · rcases h1 with ⟨h1a, _⟩ | ⟨_, h1b⟩
    · simp [c1] at h1a
    · rcases hd.of_eq h1b with ⟨hd1, _⟩ | ⟨_, hd2⟩
      · exact absurd hd1 c2
      · exact ⟨h2.1.of_eq hd2, h2.2 rfl⟩
  · rcases h1 with ⟨_, h1b⟩ | ⟨h1a, _⟩
    · exact ⟨Or.inl ⟨rfl, h1b⟩, by simp⟩
    · exact absurd c3 h1a
  · rcases h1 with ⟨h1a, _⟩ | ⟨_, h1b⟩
    · exact absurd h1a c3
    · exact ⟨Or.inr ⟨by simp, h1b⟩, by simp⟩

theorem writesOnError_iff {σ : Type} {error : Out StdString} {r : OpRet σ}
    (h : WritesOnError error r) (hn : r.result ≠ FAIL_NONFATAL) :
    (r.result = SUCCESS ∨ r.result = FAIL_ERROR) ∧
    (r.result = FAIL_ERROR ↔ error.writes < r.error.writes) ∧
    (r.result = SUCCESS ↔ r.error = error) := by
  rcases h with ⟨h1, h2⟩ | ⟨h1, h2⟩
  · refine ⟨Or.inr h1, ⟨fun _ => by omega, fun _ => h1⟩, ?_⟩
    constructor
    · intro h; rw [h1] at h; cases h
    · intro h; rw [h] at h2; omega
  · have hs : r.result = SUCCESS := by
      cases hr : r.result <;> simp_all
    refine ⟨Or.inl hs, ⟨fun h => absurd h h1, fun h => by rw [h2] at h; omega⟩, ?_⟩
    exact ⟨fun _ => h2, fun _ => hs⟩

/-- C10. For every input and every native layer, `SetSecret` and `SetPassword`
return `SUCCESS` or `FAIL_ERROR`, never `FAIL_NONFATAL`; the result is
`FAIL_ERROR` exactly when the `error` cell has been assigned, and `SUCCESS`
exactly when the cell is as it was. -/
theorem set_never_nonfatal {σ : Type} (N : Native σ)
    (service account value : StdString) (error : Out StdString) (w : World σ) :
    ((SetSecret N service account value error w).result = SUCCESS ∨
      (SetSecret N service account value error w).result = FAIL_ERROR) ∧
    ((SetSecret N service account value error w).result = FAIL_ERROR ↔
      error.writes < (SetSecret N service account value error w).error.writes) ∧
    ((SetSecret N service account value error w).result = SUCCESS ↔
      (SetSecret N service account value error w).error = error) ∧
    ((SetPassword N service account value error w).result = SUCCESS ∨
      (SetPassword N service account value error w).result = FAIL_ERROR) ∧
    ((SetPassword N service account value error w).result = FAIL_ERROR ↔
      error.writes < (SetPassword N service account value error w).error.writes) ∧
    ((SetPassword N service account value error w).result = SUCCESS ↔
      (SetPassword N service account value error w).error = error) := by
  have hs := SetSecret_writesOnError N service account value error w
  have hp := SetPassword_writesOnError N service account value error w
  have a := writesOnError_iff hs.1 hs.2
  have b := writesOnError_iff hp.1 hp.2
  exact ⟨a.1, a.2.1, a.2.2, b.1, b.2.1, b.2.2⟩

/-- C8. For `GetSecret`, `GetPassword`, `FindPassword` and `FindCredentials`:
when the native lookup reports not-found the result is `FAIL_NONFATAL`, the
`error` cell is unwritten and the payload (secret, password, credentials list)
is as it was; and whenever the payload differs from what it was, the result is
`SUCCESS`. -/
theorem absence_is_nonfatal_payload_untouched {σ : Type} (N : Native σ)
    (service account : StdString) (payload error : Out StdString)
    (credentials : List Credentials) (w : World σ) :
    ((SecItemCopyMatching N (getQuery service account) w).1 = errSecItemNotFound →
      (GetSecret N service account payload error w).result = FAIL_NONFATAL ∧
      (GetSecret N service account payload error w).error = error ∧
      (GetSecret N service account payload error w).payload = payload) ∧
    ((GetSecret N service account payload error w).payload ≠ payload →
      (GetSecret N service account payload error w).result = SUCCESS) ∧
    ((SecKeychainFindGenericPassword N service (some account) w).1 = errSecItemNotFound →
      (GetPassword N service account payload error w).result = FAIL_NONFATAL ∧
      (GetPassword N service account payload error w).error = error ∧
      (GetPassword N service account payload error w).payload = payload) ∧
    ((GetPassword N service account payload error w).payload ≠ payload →
      (GetPassword N service account payload error w).result = SUCCESS) ∧
    ((SecKeychainFindGenericPassword N service none w).1 = errSecItemNotFound →
      (FindPassword N service payload error w).result = FAIL_NONFATAL ∧
      (FindPassword N service payload error w).error = error ∧
      (FindPassword N service payload error w).payload = payload) ∧
    ((FindPassword N service payload error w).payload ≠ payload →
      (FindPassword N service payload error w).result = SUCCESS) ∧
    ((SecItemCopyMatching N (enumerationQuery (CFStringCreateWithCString service)) w).1
        = errSecItemNotFound →
      (FindCredentials N service credentials error w).result = FAIL_NONFATAL ∧
      (FindCredentials N service credentials error w).error = error ∧
      (FindCredentials N service credentials error w).credentials = credentials) ∧
    ((FindCredentials N service credentials error w).credentials ≠ credentials →
      (FindCredentials N service credentials error w).result = SUCCESS) := by
  refine ⟨?_, ?_, ?_, ?_, ?_, ?_, ?_, ?_⟩
  · intro h
    simp [GetSecret, getQuery] at h ⊢
    simp [h]
  · simp only [GetSecret]
    split_ifs <;> simp
  · intro h
    simp [GetPassword, h]
  · simp only [GetPassword]
    split_ifs <;> simp
  · intro h
    simp [FindPassword, h]
  · simp only [FindPassword]
    split_ifs <;> simp
  · intro h
    simp [FindCredentials, h, errSecItemNotFound, errSecSuccess]
  · simp only [FindCredentials]
    split_ifs <;> simp

/-! ### Enumeration -/

theorem pushCredentials_appends {σ : Type} (N : Native σ) (items : List CFDictionary) :
    ∀ (credentials : List Credentials) (w : World σ),
      ∃ added, (pushCredentials N items credentials w).1 = credentials ++ added ∧
        added.length = items.length := by
  induction items with
  | nil => intro credentials w; exact ⟨[], by simp [pushCredentials]⟩
  | cons item rest ih =>
    intro credentials w
    obtain ⟨added, h1, h2⟩ := ih (credentials ++ [(getCredentialsForItem N item w).1])
      (getCredentialsForItem N item w).2
    refine ⟨(getCredentialsForItem N item w).1 :: added, ?_, by simp [h2]⟩
    simp [pushCredentials, h1]

/-- C3, counterexample.  The enumeration yields one item and the secondary
per-item lookup fails with an authorisation failure: `FindCredentials` still
returns `SUCCESS`, leaves `error` unwritten, and the output list has gained one
entry, the default-constructed `Credentials()`. -/
theorem FindCredentials_item_failure_not_fatal :
    (FindCredentials scriptedNative "svc".toList [] Out.fresh
        (enumerationWorld [errSecSuccess, errSecAuthFailed])).result = SUCCESS ∧
    (FindCredentials scriptedNative "svc".toList [] Out.fresh
        (enumerationWorld [errSecSuccess, errSecAuthFailed])).credentials = [Credentials.empty] ∧
    (FindCredentials scriptedNative "svc".toList [] Out.fresh
        (enumerationWorld [errSecSuccess, errSecAuthFailed])).error = Out.fresh ∧
    (SecItemCopyMatching scriptedNative (itemQuery "svc".toList "acct".toList)
        (SecItemCopyMatching scriptedNative (enumerationQuery "svc".toList)
          (enumerationWorld [errSecSuccess, errSecAuthFailed])).2.2).1 = errSecAuthFailed := by
  decide

/-- C3, amended.  When the enumeration query of `FindCredentials` reports a
status that is neither success nor not-found, the result is `FAIL_ERROR` with
the decoded message and the output list is unchanged.  When it reports success
the result is `SUCCESS`, `error` is unwritten and the output list gains exactly
one entry per enumerated item, whatever the per-item lookups report; an item
whose secondary lookup fails contributes the default-constructed
`Credentials()`. -/
theorem FindCredentials_enumeration_failure {σ : Type} (N : Native σ)
    (service : StdString) (credentials : List Credentials) (error : Out StdString)
    (w : World σ) :
    let e := SecItemCopyMatching N (enumerationQuery (CFStringCreateWithCString service)) w
    let r := FindCredentials N service credentials error w
    (e.1 ≠ errSecSuccess → e.1 ≠ errSecItemNotFound →
      r.result = FAIL_ERROR ∧ r.credentials = credentials ∧
      r.error = error.assign (errorStatusToString N e.1)) ∧
    (e.1 = errSecSuccess →
      r.result = SUCCESS ∧ r.error = error ∧
      ∃ added, r.credentials = credentials ++ added ∧ added.length = e.2.1.asArray.length) ∧
    (∀ (item : CFDictionary) (w1 : World σ),
      (SecItemCopyMatching N (itemQuery
        (CFDictionaryGetValue item CFKey.kSecAttrService).asString
        (CFDictionaryGetValue item CFKey.kSecAttrAccount).asString) w1).1 ≠ errSecSuccess →
      (getCredentialsForItem N item w1).1 = Credentials.empty) := by
  intro e r
  refine ⟨?_, ?_, ?_⟩
  · intro h1 h2
    have h1' : (SecItemCopyMatching N (enumerationQuery (CFStringCreateWithCString service)) w).1
      ≠ errSecSuccess := h1
    have h2' : (SecItemCopyMatching N (enumerationQuery (CFStringCreateWithCString service)) w).1
      ≠ errSecItemNotFound := h2
    simp [r, e, FindCredentials, h1', h2']
  · intro h
    have h' : (SecItemCopyMatching N (enumerationQuery (CFStringCreateWithCString service)) w).1
      = errSecSuccess := h
    simp only [r, e, FindCredentials, h', if_true, true_and]
    exact pushCredentials_appends N _ credentials _
  · intro item w1 h
    simp [getCredentialsForItem, h]

/-- C3, amended, at a concrete input: the enumeration query fails with an
authorisation failure. -/
theorem FindCredentials_enumeration_failure_witness :
    (FindCredentials scriptedNative "svc".toList [] Out.fresh
        (enumerationWorld [errSecAuthFailed])).result = FAIL_ERROR ∧
    (FindCredentials scriptedNative "svc".toList [] Out.fresh
        (enumerationWorld [errSecAuthFailed])).credentials = [] := by
  have h := (FindCredentials_enumeration_failure scriptedNative "svc".toList [] Out.fresh
    (enumerationWorld [errSecAuthFailed])).1 (by decide) (by decide)
  exact ⟨h.1, h.2.1⟩

/-! ### The reference keychain on the dictionaries the backend builds -/

theorem itemsOf_secretQuery (k : Keychain) (s a : StdString) :
    k.itemsOf (secretQuery s a) = k.internet := rfl

theorem itemsOf_getQuery (k : Keychain) (s a : StdString) :
    k.itemsOf (getQuery s a) = k.internet := rfl

theorem itemsOf_addAttributes (k : Keychain) (s a d : StdString) :
    k.itemsOf (addAttributes s a d) = k.internet := rfl

theorem withItemsOf_secretQuery (k : Keychain) (s a : StdString) (items : List KeychainItem) :
    k.withItemsOf (secretQuery s a) items = { k with internet := items } := rfl

theorem withItemsOf_addAttributes (k : Keychain) (s a d : StdString)
    (items : List KeychainItem) :
    k.withItemsOf (addAttributes s a d) items = { k with internet := items } := rfl

theorem queryMatches_secretQuery (s a : StdString) (it : KeychainItem) :
    queryMatches (secretQuery s a) it = it.hasKey (readCString s) (readCString a) := by
  have h : secretQuery s a = [(CFKey.kSecClass, CFValue.kSecClassInternetPassword),
      (CFKey.kSecAttrServer, CFValue.string (readCString s)),
      (CFKey.kSecAttrAccount, CFValue.string (readCString a))] := rfl
  simp [queryMatches, attrMatches, h, CFDictionaryGetValue, serviceKeyOf, KeychainItem.hasKey]

theorem queryMatches_getQuery (s a : StdString) (it : KeychainItem) :
    queryMatches (getQuery s a) it = it.hasKey (readCString s) (readCString a) := by
  have h : getQuery s a = [(CFKey.kSecClass, CFValue.kSecClassInternetPassword),
      (CFKey.kSecAttrServer, CFValue.string (readCString s)),
      (CFKey.kSecAttrAccount, CFValue.string (readCString a)),
      (CFKey.kSecMatchLimit, CFValue.kSecMatchLimitOne),
      (CFKey.kSecReturnData, CFValue.kCFBooleanTrue)] := rfl
  simp [queryMatches, attrMatches, h, CFDictionaryGetValue, serviceKeyOf, KeychainItem.hasKey]

theorem itemsOf_enumerationQuery (k : Keychain) (s : CFString) :
    k.itemsOf (enumerationQuery s) = k.generic := rfl

theorem itemsOf_itemQuery (k : Keychain) (s a : CFString) :
    k.itemsOf (itemQuery s a) = k.generic := rfl

theorem queryMatches_enumerationQuery (s : CFString) (it : KeychainItem) :
    queryMatches (enumerationQuery s) it = decide (it.service = s) := by
  simp [queryMatches, attrMatches, enumerationQuery, CFDictionaryAddValue,
    CFDictionaryCreateMutable, CFDictionaryGetValue, serviceKeyOf]

theorem queryMatches_itemQuery (s a : CFString) (it : KeychainItem) :
    queryMatches (itemQuery s a) it = it.hasKey s a := by
  simp [queryMatches, attrMatches, itemQuery, CFDictionaryAddValue,
    CFDictionaryCreateMutable, CFDictionaryGetValue, serviceKeyOf, KeychainItem.hasKey]

/-! ### Lists of items with unique keys -/

theorem uniqueKeys_cons (it : KeychainItem) (rest : List KeychainItem) :
    uniqueKeys (it :: rest) ↔
      (rest.any (KeychainItem.hasKey it.service it.account) = false) ∧ uniqueKeys rest := by
  simp only [uniqueKeys, List.map_cons, List.nodup_cons]
  constructor
  · rintro ⟨h1, h2⟩
    refine ⟨?_, h2⟩
    rw [List.any_eq_false]
    intro x hx hk
    apply h1
    simp only [KeychainItem.hasKey, decide_eq_true_eq] at hk
    exact List.mem_map.mpr ⟨x, hx, by rw [hk.1, hk.2]⟩
  · rintro ⟨h1, h2⟩
    refine ⟨?_, h2⟩
    intro hmem
    obtain ⟨x, hx, hk⟩ := List.mem_map.mp hmem
    rw [List.any_eq_false] at h1
    apply h1 x hx
    simp only [Prod.mk.injEq] at hk
    simp [KeychainItem.hasKey, hk.1, hk.2]

theorem filter_hasKey_of_none (s a : List Char) (items : List KeychainItem)
    (h : items.any (KeychainItem.hasKey s a) = false) :
    items.filter (KeychainItem.hasKey s a) = [] := by
  rw [List.any_eq_false] at h
  rw [List.filter_eq_nil_iff]
  exact h

theorem hasKey_iff (s a : List Char) (it : KeychainItem) :
    it.hasKey s a = true ↔ it.service = s ∧ it.account = a := by
  simp [KeychainItem.hasKey]

theorem filter_hasKey_update (s a d : List Char) (items : List KeychainItem) :
    uniqueKeys items → items.any (KeychainItem.hasKey s a) = true →
    (items.map (fun it => if it.hasKey s a then { it with data := d } else it)).filter
      (KeychainItem.hasKey s a) = [⟨s, a, d⟩] := by
  induction items with
  | nil => intro _ h; simp at h
  | cons it rest ih =>
    intro hu hany
    rw [uniqueKeys_cons] at hu
    by_cases hk : it.hasKey s a = true
    · have hk' := (hasKey_iff s a it).mp hk
      have hrest : rest.any (KeychainItem.hasKey s a) = false := by
        rw [← hk'.1, ← hk'.2]; exact hu.1
      have hmap : rest.map (fun it => if it.hasKey s a then { it with data := d } else it)
          = rest := by
        rw [List.any_eq_false] at hrest
        conv => rhs; rw [← List.map_id rest]
        apply List.map_congr_left
        intro x hx
        simp [hrest x hx]
      simp only [List.map_cons, hk, if_true, hmap]
      rw [List.filter_cons, filter_hasKey_of_none s a rest hrest]
      simp [KeychainItem.hasKey, hk'.1, hk'.2]
    · have hk' : it.hasKey s a = false := by simpa using hk
      have hrest : rest.any (KeychainItem.hasKey s a) = true := by
        simpa [List.any_cons, hk'] using hany
      simp only [List.map_cons, hk', Bool.false_eq_true, if_false]
      rw [List.filter_cons]
      simp only [hk', Bool.false_eq_true, if_false]
      exact ih hu.2 hrest

theorem uniqueKeys_update (s a d : List Char) (items : List KeychainItem)
    (h : uniqueKeys items) :
    uniqueKeys (items.map (fun it => if it.hasKey s a then { it with data := d } else it)) := by
  unfold uniqueKeys at h ⊢
  rw [List.map_map]
  have : ((fun it : KeychainItem => (it.service, it.account)) ∘
      fun it => if it.hasKey s a then { it with data := d } else it)
      = fun it : KeychainItem => (it.service, it.account) := by
    funext it
    simp only [Function.comp]
    split_ifs <;> rfl
  rw [this]; exact h

theorem uniqueKeys_append_new (s a d : List Char) (items : List KeychainItem)
    (h : uniqueKeys items) (hn : items.any (KeychainItem.hasKey s a) = false) :
    uniqueKeys (items ++ [⟨s, a, d⟩]) := by
  unfold uniqueKeys at h ⊢
  rw [List.map_append, List.nodup_append]
  refine ⟨h, by simp, ?_⟩
  intro x hx hx'
  simp only [List.map_cons, List.map_nil, List.mem_singleton] at hx'
  subst hx'
  obtain ⟨y, hy, hk⟩ := List.mem_map.mp hx
  rw [List.any_eq_false] at hn
  apply hn y hy
  simp only [Prod.mk.injEq] at hk
  simp [KeychainItem.hasKey, hk.1, hk.2]

theorem uniqueKeys_setItem (s a d : List Char) (items : List KeychainItem)
    (h : uniqueKeys items) : uniqueKeys (setItem s a d items) := by
  unfold setItem
  split_ifs with hany
  · exact uniqueKeys_update s a d items h
  · exact uniqueKeys_append_new s a d items h (by simpa using hany)

theorem filter_hasKey_setItem (s a d : List Char) (items : List KeychainItem)
    (h : uniqueKeys items) :
    (setItem s a d items).filter (KeychainItem.hasKey s a) = [⟨s, a, d⟩] := by
  unfold setItem
  split_ifs with hany
  · exact filter_hasKey_update s a d items h hany
  · rw [List.filter_append, filter_hasKey_of_none s a items (by simpa using hany)]
    simp [KeychainItem.hasKey]

/-! ### The Secret family on the reference keychain -/

theorem queryMatches_secretQuery_fun (s a : StdString) :
    queryMatches (secretQuery s a) = KeychainItem.hasKey (readCString s) (readCString a) :=
  funext (queryMatches_secretQuery s a)

theorem queryMatches_getQuery_fun (s a : StdString) :
    queryMatches (getQuery s a) = KeychainItem.hasKey (readCString s) (readCString a) :=
  funext (queryMatches_getQuery s a)

theorem UpdateSecret_eq {σ : Type} (N : Native σ) (service account secret : StdString)
    (error : Out StdString) (w : World σ) :
    UpdateSecret N service account secret error w =
      if (N.SecItemUpdate (secretQuery service account) (updateAttributes secret)
          w.keychain).1 = errSecItemNotFound then
        ⟨FAIL_NONFATAL, error,
          ⟨(N.SecItemUpdate (secretQuery service account) (updateAttributes secret) w.keychain).2,
            w.calls ++ [NativeCall.SecItemUpdate (secretQuery service account)
              (updateAttributes secret)]⟩⟩
      else if (N.SecItemUpdate (secretQuery service account) (updateAttributes secret)
          w.keychain).1 ≠ errSecSuccess then
        ⟨FAIL_ERROR, error.assign (errorStatusToString N
            (N.SecItemUpdate (secretQuery service account) (updateAttributes secret)
              w.keychain).1),
          ⟨(N.SecItemUpdate (secretQuery service account) (updateAttributes secret) w.keychain).2,
            w.calls ++ [NativeCall.SecItemUpdate (secretQuery service account)
              (updateAttributes secret)]⟩⟩
      else
        ⟨SUCCESS, error,
          ⟨(N.SecItemUpdate (secretQuery service account) (updateAttributes secret) w.keychain).2,
            w.calls ++ [NativeCall.SecItemUpdate (secretQuery service account)
              (updateAttributes secret)]⟩⟩ := rfl

theorem AddSecret_eq {σ : Type} (N : Native σ) (service account secret : StdString)
    (error : Out StdString) (w : World σ) :
    AddSecret N service account secret error w =
      if (N.SecItemAdd (addAttributes service account secret) w.keychain).1 ≠ errSecSuccess then
        ⟨FAIL_ERROR, error.assign (errorStatusToString N
            (N.SecItemAdd (addAttributes service account secret) w.keychain).1),
          ⟨(N.SecItemAdd (addAttributes service account secret) w.keychain).2,
            w.calls ++ [NativeCall.SecItemAdd (addAttributes service account secret)]⟩⟩
      else
        ⟨SUCCESS, error,
          ⟨(N.SecItemAdd (addAttributes service account secret) w.keychain).2,
            w.calls ++ [NativeCall.SecItemAdd (addAttributes service account secret)]⟩⟩ := rfl

theorem GetSecret_eq {σ : Type} (N : Native σ) (service account : StdString)
    (secret error : Out StdString) (w : World σ) :
    GetSecret N service account secret error w =
      if (N.SecItemCopyMatching (getQuery service account) w.keychain).1
          = errSecItemNotFound then
        ⟨FAIL_NONFATAL, secret, error,
          ⟨(N.SecItemCopyMatching (getQuery service account) w.keychain).2.2,
            w.calls ++ [NativeCall.SecItemCopyMatching (getQuery service account)]⟩⟩
      else if (N.SecItemCopyMatching (getQuery service account) w.keychain).1
          ≠ errSecSuccess then
        ⟨FAIL_ERROR, secret, error.assign (errorStatusToString N
            (N.SecItemCopyMatching (getQuery service account) w.keychain).1),
          ⟨(N.SecItemCopyMatching (getQuery service account) w.keychain).2.2,
            w.calls ++ [NativeCall.SecItemCopyMatching (getQuery service account)]⟩⟩
      else
        ⟨SUCCESS, secret.assign (CFStringToStdString N
            (N.SecItemCopyMatching (getQuery service account) w.keychain).2.1.asData), error,
          ⟨(N.SecItemCopyMatching (getQuery service account) w.keychain).2.2,
            w.calls ++ [NativeCall.SecItemCopyMatching (getQuery service account)]⟩⟩ := rfl

theorem DeleteSecret_eq {σ : Type} (N : Native σ) (service account : StdString)
    (error : Out StdString) (w : World σ) :
    DeleteSecret N service account error w =
      if (N.SecItemDelete (secretQuery service account) w.keychain).1 = errSecItemNotFound then
        ⟨FAIL_NONFATAL, error,
          ⟨(N.SecItemDelete (secretQuery service account) w.keychain).2,
            w.calls ++ [NativeCall.SecItemDelete (secretQuery service account)]⟩⟩
      else if (N.SecItemDelete (secretQuery service account) w.keychain).1 = errSecSuccess then
        ⟨SUCCESS, error,
          ⟨(N.SecItemDelete (secretQuery service account) w.keychain).2,
            w.calls ++ [NativeCall.SecItemDelete (secretQuery service account)]⟩⟩
      else
        ⟨FAIL_ERROR, error.assign (CFStringToStdString N (N.SecCopyErrorMessageString
            (N.SecItemDelete (secretQuery service account) w.keychain).1)),
          ⟨(N.SecItemDelete (secretQuery service account) w.keychain).2,
            w.calls ++ [NativeCall.SecItemDelete (secretQuery service account)]⟩⟩ := rfl

theorem UpdateSecret_reference (ptr : CFString → Bool) (msg : OSStatus → CFString)
    (service account secret : StdString) (error : Out StdString) (w : World Keychain) :
    UpdateSecret (reference ptr msg) service account secret error w =
      if w.keychain.internet.any (KeychainItem.hasKey (readCString service) (readCString account))
      then ⟨SUCCESS, error, ⟨⟨w.keychain.internet.map (fun it =>
          if it.hasKey (readCString service) (readCString account)
          then { it with data := readCString secret } else it), w.keychain.generic⟩,
        w.calls ++ [NativeCall.SecItemUpdate (secretQuery service account)
          (updateAttributes secret)]⟩⟩
      else ⟨FAIL_NONFATAL, error, ⟨w.keychain,
        w.calls ++ [NativeCall.SecItemUpdate (secretQuery service account)
          (updateAttributes secret)]⟩⟩ := by
  have hq := queryMatches_secretQuery_fun service account
  have hi := itemsOf_secretQuery w.keychain service account
  have hw := withItemsOf_secretQuery w.keychain service account
  have hd : CFDictionaryGetValue (updateAttributes secret) CFKey.kSecValueData
      = CFValue.data (readCString secret) := rfl
  have hu : (reference ptr msg).SecItemUpdate (secretQuery service account)
      (updateAttributes secret) w.keychain =
      if w.keychain.internet.any (KeychainItem.hasKey (readCString service) (readCString account))
      then (errSecSuccess, ⟨w.keychain.internet.map (fun it =>
          if it.hasKey (readCString service) (readCString account)
          then { it with data := readCString secret } else it), w.keychain.generic⟩)
      else (errSecItemNotFound, w.keychain) := by
    simp only [reference, Keychain.SecItemUpdate, hq, hi, hw, hd]
  rw [UpdateSecret_eq, hu]
  split_ifs <;> simp_all [errSecSuccess, errSecItemNotFound]

theorem AddSecret_reference (ptr : CFString → Bool) (msg : OSStatus → CFString)
    (service account secret : StdString) (error : Out StdString) (w : World Keychain)
    (hnone : w.keychain.internet.any
      (KeychainItem.hasKey (readCString service) (readCString account)) = false) :
    AddSecret (reference ptr msg) service account secret error w =
      ⟨SUCCESS, error, ⟨⟨w.keychain.internet ++
          [⟨readCString service, readCString account, readCString secret⟩],
          w.keychain.generic⟩,
        w.calls ++ [NativeCall.SecItemAdd (addAttributes service account secret)]⟩⟩ := by
  have hi := itemsOf_addAttributes w.keychain service account secret
  have hw := withItemsOf_addAttributes w.keychain service account secret
  have h1 : (CFDictionaryGetValue (addAttributes service account secret)
      (serviceKeyOf (addAttributes service account secret))).asString = readCString service := rfl
  have h2 : (CFDictionaryGetValue (addAttributes service account secret)
      CFKey.kSecAttrAccount).asString = readCString account := rfl
  have h3 : (CFDictionaryGetValue (addAttributes service account secret)
      CFKey.kSecValueData).asData = readCString secret := rfl
  have hu : (reference ptr msg).SecItemAdd (addAttributes service account secret) w.keychain =
      (errSecSuccess, ⟨w.keychain.internet ++
          [⟨readCString service, readCString account, readCString secret⟩],
          w.keychain.generic⟩) := by
    simp only [reference, Keychain.SecItemAdd, hi, hw, h1, h2, h3, hnone]
    simp
  rw [AddSecret_eq, hu]
  simp

theorem SetSecret_reference (ptr : CFString → Bool) (msg : OSStatus → CFString)
    (service account secret : StdString) (error : Out StdString) (w : World Keychain) :
    (SetSecret (reference ptr msg) service account secret error w).result = SUCCESS ∧
    (SetSecret (reference ptr msg) service account secret error w).error = error ∧
    (SetSecret (reference ptr msg) service account secret error w).world.keychain =
      ⟨setItem (readCString service) (readCString account) (readCString secret)
        w.keychain.internet, w.keychain.generic⟩ := by
  by_cases hany : w.keychain.internet.any
      (KeychainItem.hasKey (readCString service) (readCString account)) = true
  · simp [SetSecret, UpdateSecret_reference, hany, setItem]
  · have hany' : w.keychain.internet.any
        (KeychainItem.hasKey (readCString service) (readCString account)) = false := by
      simpa using hany
    have ha := AddSecret_reference ptr msg service account secret error
      ⟨w.keychain, w.calls ++ [NativeCall.SecItemUpdate (secretQuery service account)
          (updateAttributes secret)]⟩ hany'
    simp only [SetSecret, UpdateSecret_reference, hany', Bool.false_eq_true, if_false, if_true, ha,
      setItem]
    simp

theorem GetSecret_reference (ptr : CFString → Bool) (msg : OSStatus → CFString)
    (service account : StdString) (secret error : Out StdString) (w : World Keychain)
    (it : KeychainItem) (rest : List KeychainItem)
    (h : w.keychain.internet.filter
      (KeychainItem.hasKey (readCString service) (readCString account)) = it :: rest) :
    (GetSecret (reference ptr msg) service account secret error w).result = SUCCESS ∧
    (GetSecret (reference ptr msg) service account secret error w).error = error ∧
    (GetSecret (reference ptr msg) service account secret error w).payload =
      secret.assign (CFStringToStdString (reference ptr msg) it.data) := by
  have hq := queryMatches_getQuery_fun service account
  have hi := itemsOf_getQuery w.keychain service account
  have h1 : CFDictionaryGetValue (getQuery service account) CFKey.kSecMatchLimit
      = CFValue.kSecMatchLimitOne := rfl
  have h2 : CFDictionaryGetValue (getQuery service account) CFKey.kSecReturnAttributes
      = CFValue.null := rfl
  have h3 : CFDictionaryGetValue (getQuery service account) CFKey.kSecReturnData
      = CFValue.kCFBooleanTrue := rfl
  have hu : (reference ptr msg).SecItemCopyMatching (getQuery service account) w.keychain =
      (errSecSuccess, CFTypeRef.data it.data, w.keychain) := by
    simp only [reference, Keychain.SecItemCopyMatching, hq, hi, h, h1, h2, h3]
    simp
  rw [GetSecret_eq, hu]
  simp [errSecSuccess, errSecItemNotFound, CFTypeRef.asData]

/-- C8, at a concrete input: every lookup reports not-found. -/
theorem absence_is_nonfatal_payload_untouched_witness :
    ((GetSecret scriptedNative "svc".toList "acct".toList Out.fresh Out.fresh
        (scriptWorld [errSecItemNotFound])).result = FAIL_NONFATAL ∧
      (GetSecret scriptedNative "svc".toList "acct".toList Out.fresh Out.fresh
        (scriptWorld [errSecItemNotFound])).payload = Out.fresh) ∧
    ((GetPassword scriptedNative "svc".toList "acct".toList Out.fresh Out.fresh
        (scriptWorld [errSecItemNotFound])).result = FAIL_NONFATAL ∧
      (GetPassword scriptedNative "svc".toList "acct".toList Out.fresh Out.fresh
        (scriptWorld [errSecItemNotFound])).payload = Out.fresh) ∧
    ((FindPassword scriptedNative "svc".toList Out.fresh Out.fresh
        (scriptWorld [errSecItemNotFound])).result = FAIL_NONFATAL ∧
      (FindPassword scriptedNative "svc".toList Out.fresh Out.fresh
        (scriptWorld [errSecItemNotFound])).payload = Out.fresh) ∧
    ((FindCredentials scriptedNative "svc".toList [] Out.fresh
        (scriptWorld [errSecItemNotFound])).result = FAIL_NONFATAL ∧
      (FindCredentials scriptedNative "svc".toList [] Out.fresh
        (scriptWorld [errSecItemNotFound])).credentials = []) := by
  have h := absence_is_nonfatal_payload_untouched scriptedNative "svc".toList "acct".toList
    Out.fresh Out.fresh [] (scriptWorld [errSecItemNotFound])
  have h1 := h.1 (by decide)
  have h2 := h.2.2.1 (by decide)
  have h3 := h.2.2.2.2.1 (by decide)
  have h4 := h.2.2.2.2.2.2.1 (by decide)
  exact ⟨⟨h1.1, h1.2.2⟩, ⟨h2.1, h2.2.2⟩, ⟨h3.1, h3.2.2⟩, ⟨h4.1, h4.2.2⟩⟩

/-! ### Deleting on the reference keychain -/

theorem DeleteSecret_reference (ptr : CFString → Bool) (msg : OSStatus → CFString)
    (service account : StdString) (error : Out StdString) (w : World Keychain) :
    DeleteSecret (reference ptr msg) service account error w =
      if w.keychain.internet.any (KeychainItem.hasKey (readCString service) (readCString account))
      then ⟨SUCCESS, error, ⟨⟨w.keychain.internet.filter (fun it =>
          !it.hasKey (readCString service) (readCString account)), w.keychain.generic⟩,
        w.calls ++ [NativeCall.SecItemDelete (secretQuery service account)]⟩⟩
      else ⟨FAIL_NONFATAL, error, ⟨w.keychain,
        w.calls ++ [NativeCall.SecItemDelete (secretQuery service account)]⟩⟩ := by
  have hq := queryMatches_secretQuery_fun service account
  have hi := itemsOf_secretQuery w.keychain service account
  have hw := withItemsOf_secretQuery w.keychain service account
  have hu : (reference ptr msg).SecItemDelete (secretQuery service account) w.keychain =
      if w.keychain.internet.any (KeychainItem.hasKey (readCString service) (readCString account))
      then (errSecSuccess, ⟨w.keychain.internet.filter (fun it =>
          !it.hasKey (readCString service) (readCString account)), w.keychain.generic⟩)
      else (errSecItemNotFound, w.keychain) := by
    simp only [reference, Keychain.SecItemDelete, hq, hi, hw]
  rw [DeleteSecret_eq, hu]
  split_ifs <;> simp_all [errSecSuccess, errSecItemNotFound]

theorem any_hasKey_filter_not (s a : List Char) (items : List KeychainItem) :
    (items.filter (fun it => !it.hasKey s a)).any (KeychainItem.hasKey s a) = false := by
  rw [List.any_eq_false]
  intro x hx
  have := (List.mem_filter.mp hx).2
  simpa using this

theorem eraseP_hasKey (s a : List Char) (items : List KeychainItem) :
    uniqueKeys items →
    items.eraseP (KeychainItem.hasKey s a) = items.filter (fun it => !it.hasKey s a) := by
  induction items with
  | nil => intro _; rfl
  | cons it rest ih =>
    intro hu
    rw [uniqueKeys_cons] at hu
    by_cases hk : it.hasKey s a = true
    · have hk' := (hasKey_iff s a it).mp hk
      have hrest : rest.any (KeychainItem.hasKey s a) = false := by
        rw [← hk'.1, ← hk'.2]; exact hu.1
      rw [List.any_eq_false] at hrest
      have hf : rest.filter (fun it => !it.hasKey s a) = rest := by
        rw [List.filter_eq_self]
        intro x hx
        simp [hrest x hx]
      simp [List.eraseP_cons, hk, hf]
    · have hk' : it.hasKey s a = false := by simpa using hk
      simp [List.eraseP_cons, hk', ih hu.2]

theorem findPredicate_some (s a : List Char) :
    (fun it : KeychainItem =>
      decide (it.service = s) && ((some a).isNone || decide (some a = some it.account)))
      = KeychainItem.hasKey s a := by
  funext it
  simp only [KeychainItem.hasKey, Option.isNone_some, Bool.false_or, Option.some.injEq]
  by_cases h1 : it.service = s <;> by_cases h2 : it.account = a
  · simp [h1, h2]
  · have h3 : ¬ a = it.account := fun h => h2 h.symm
    simp [h1, h2, h3]
  · simp [h1, h2]
  · simp [h1, h2]

theorem SecKeychainFindGenericPassword_reference (s a : List Char) (k : Keychain) :
    (k.generic.any (KeychainItem.hasKey s a) = false →
      Keychain.SecKeychainFindGenericPassword s (some a) k
        = (errSecItemNotFound, [], ⟨[], []⟩, k)) ∧
    (k.generic.any (KeychainItem.hasKey s a) = true →
      ∃ d, Keychain.SecKeychainFindGenericPassword s (some a) k
        = (errSecSuccess, d, ⟨s, a⟩, k)) := by
  constructor
  · intro h
    rw [List.any_eq_false] at h
    have : k.generic.find? (KeychainItem.hasKey s a) = none := by
      rw [List.find?_eq_none]; exact h
    simp only [Keychain.SecKeychainFindGenericPassword, findPredicate_some, this]
  · intro h
    rw [List.any_eq_true] at h
    obtain ⟨x, hx, hk⟩ := h
    cases hf : k.generic.find? (KeychainItem.hasKey s a) with
    | none =>
      rw [List.find?_eq_none] at hf
      exact absurd hk (hf x hx)
    | some it =>
      have hit := List.find?_some hf
      have hit' := (hasKey_iff s a it).mp hit
      exact ⟨it.data, by
        simp only [Keychain.SecKeychainFindGenericPassword, findPredicate_some, hf, hit'.1, hit'.2]⟩

theorem DeletePassword_reference (ptr : CFString → Bool) (msg : OSStatus → CFString)
    (service account : StdString) (error : Out StdString) (w : World Keychain) :
    DeletePassword (reference ptr msg) service account error w =
      if w.keychain.generic.any (KeychainItem.hasKey service account)
      then ⟨SUCCESS, error, ⟨⟨w.keychain.internet,
          w.keychain.generic.eraseP (KeychainItem.hasKey service account)⟩,
        w.calls ++ [NativeCall.SecKeychainFindGenericPassword service (some account),
          NativeCall.SecKeychainItemDelete ⟨service, account⟩]⟩⟩
      else ⟨FAIL_NONFATAL, error, ⟨w.keychain,
        w.calls ++ [NativeCall.SecKeychainFindGenericPassword service (some account)]⟩⟩ := by
  have hf := SecKeychainFindGenericPassword_reference service account w.keychain
  by_cases hany : w.keychain.generic.any (KeychainItem.hasKey service account) = true
  · obtain ⟨d, hd⟩ := hf.2 hany
    have hd' : (reference ptr msg).SecKeychainFindGenericPassword service (some account)
        w.keychain = (errSecSuccess, d, ⟨service, account⟩, w.keychain) := hd
    have hdel : (reference ptr msg).SecKeychainItemDelete ⟨service, account⟩ w.keychain
        = (errSecSuccess, ⟨w.keychain.internet,
          w.keychain.generic.eraseP (KeychainItem.hasKey service account)⟩) := by
      simp only [reference, Keychain.SecKeychainItemDelete, hany, if_true]
    simp only [DeletePassword, keytar.SecKeychainFindGenericPassword, hd',
      keytar.SecKeychainItemDelete, hdel, hany, if_true]
    simp [errSecSuccess, errSecItemNotFound]
  · have hany' : w.keychain.generic.any (KeychainItem.hasKey service account) = false := by
      simpa using hany
    have hd' : (reference ptr msg).SecKeychainFindGenericPassword service (some account)
        w.keychain = (errSecItemNotFound, [], ⟨[], []⟩, w.keychain) := hf.1 hany'
    simp only [DeletePassword, keytar.SecKeychainFindGenericPassword, hd', hany']
    simp

/-- C7. When the native delete query of `DeleteSecret` (`SecItemDelete`), or the
native lookup of `DeletePassword` (`SecKeychainFindGenericPassword`), reports
not-found, the operation returns `FAIL_NONFATAL`, leaves `error` unwritten, and
that query is its only native call: `DeletePassword` issues no
`SecKeychainItemDelete`.  On the reference keychain: deleting a key that is not
stored returns `FAIL_NONFATAL` and leaves the keychain as it was, and deleting
the same key again after a delete that returned `SUCCESS` returns
`FAIL_NONFATAL`. -/
theorem delete_not_found_is_nonfatal :
    (∀ (σ : Type) (N : Native σ) (service account : StdString) (error : Out StdString)
        (w : World σ),
      (N.SecItemDelete (secretQuery service account) w.keychain).1 = errSecItemNotFound →
      (DeleteSecret N service account error w).result = FAIL_NONFATAL ∧
      (DeleteSecret N service account error w).error = error ∧
      (DeleteSecret N service account error w).world.calls
        = w.calls ++ [NativeCall.SecItemDelete (secretQuery service account)]) ∧
    (∀ (σ : Type) (N : Native σ) (service account : StdString) (error : Out StdString)
        (w : World σ),
      (N.SecKeychainFindGenericPassword service (some account) w.keychain).1
        = errSecItemNotFound →
      (DeletePassword N service account error w).result = FAIL_NONFATAL ∧
      (DeletePassword N service account error w).error = error ∧
      (DeletePassword N service account error w).world.calls
        = w.calls ++ [NativeCall.SecKeychainFindGenericPassword service (some account)]) ∧
    (∀ (ptr : CFString → Bool) (msg : OSStatus → CFString) (service account : StdString)
        (error : Out StdString) (w : World Keychain),
      w.keychain.internet.any
        (KeychainItem.hasKey (StdStringToCFString service) (StdStringToCFString account))
        = false →
      (DeleteSecret (reference ptr msg) service account error w).result = FAIL_NONFATAL ∧
      (DeleteSecret (reference ptr msg) service account error w).error = error ∧
      (DeleteSecret (reference ptr msg) service account error w).world.keychain = w.keychain) ∧
    (∀ (ptr : CFString → Bool) (msg : OSStatus → CFString) (service account : StdString)
        (error : Out StdString) (w : World Keychain),
      w.keychain.generic.any (KeychainItem.hasKey service account) = false →
      (DeletePassword (reference ptr msg) service account error w).result = FAIL_NONFATAL ∧
      (DeletePassword (reference ptr msg) service account error w).error = error ∧
      (DeletePassword (reference ptr msg) service account error w).world.keychain = w.keychain) ∧
    (∀ (ptr : CFString → Bool) (msg : OSStatus → CFString) (service account : StdString)
        (error : Out StdString) (w : World Keychain),
      (DeleteSecret (reference ptr msg) service account error w).result = SUCCESS →
      (DeleteSecret (reference ptr msg) service account error
        (DeleteSecret (reference ptr msg) service account error w).world).result
        = FAIL_NONFATAL) ∧
    (∀ (ptr : CFString → Bool) (msg : OSStatus → CFString) (service account : StdString)
        (error : Out StdString) (w : World Keychain),
      w.keychain.WellFormed →
      (DeletePassword (reference ptr msg) service account error w).result = SUCCESS →
      (DeletePassword (reference ptr msg) service account error
        (DeletePassword (reference ptr msg) service account error w).world).result
        = FAIL_NONFATAL) := by
  refine ⟨?_, ?_, ?_, ?_, ?_, ?_⟩
  · intro σ N service account error w h
    rw [DeleteSecret_eq, if_pos h]
    exact ⟨rfl, rfl, rfl⟩
  · intro σ N service account error w h
    have h' : (SecKeychainFindGenericPassword N service (some account) w).1
        = errSecItemNotFound := h
    simp [DeletePassword, keytar.SecKeychainFindGenericPassword, h]
  · intro ptr msg service account error w h
    have h' : w.keychain.internet.any
        (KeychainItem.hasKey (readCString service) (readCString account)) = false := h
    rw [DeleteSecret_reference, h']
    simp
  · intro ptr msg service account error w h
    rw [DeletePassword_reference, h]
    simp
  · intro ptr msg service account error w h
    have e := DeleteSecret_reference ptr msg service account error w
    by_cases hany : w.keychain.internet.any
        (KeychainItem.hasKey (readCString service) (readCString account)) = true
    · rw [if_pos hany] at e
      rw [e, DeleteSecret_reference]
      simp only [any_hasKey_filter_not]
      simp
    · rw [if_neg hany] at e
      rw [e] at h
      cases h
  · intro ptr msg service account error w hk h
    have e := DeletePassword_reference ptr msg service account error w
    by_cases hany : w.keychain.generic.any (KeychainItem.hasKey service account) = true
    · rw [if_pos hany] at e
      rw [e, DeletePassword_reference]
      simp only [eraseP_hasKey service account w.keychain.generic hk.2, any_hasKey_filter_not]
      simp
    · rw [if_neg hany] at e
      rw [e] at h
      cases h

/-- C7, at concrete inputs: scripted native layers that report not-found; a key
that was never set in the empty reference keychain; and a second delete after
a successful one in a keychain that holds the key. -/
theorem delete_not_found_is_nonfatal_witness :
    (DeleteSecret scriptedNative "svc".toList "acct".toList Out.fresh
        (scriptWorld [errSecItemNotFound])).result = FAIL_NONFATAL ∧
    (DeletePassword scriptedNative "svc".toList "acct".toList Out.fresh
        (scriptWorld [errSecItemNotFound])).world.calls
        = [NativeCall.SecKeychainFindGenericPassword "svc".toList (some "acct".toList)] ∧
    (DeleteSecret referenceNative "svc".toList "acct".toList Out.fresh
        ⟨Keychain.empty, []⟩).result = FAIL_NONFATAL ∧
    (DeletePassword referenceNative "svc".toList "acct".toList Out.fresh
        ⟨Keychain.empty, []⟩).result = FAIL_NONFATAL ∧
    ((DeleteSecret referenceNative "svc".toList "acct".toList Out.fresh
        ⟨sampleKeychain, []⟩).result = SUCCESS ∧
      (DeleteSecret referenceNative "svc".toList "acct".toList Out.fresh
        (DeleteSecret referenceNative "svc".toList "acct".toList Out.fresh
          ⟨sampleKeychain, []⟩).world).result = FAIL_NONFATAL) ∧
    ((DeletePassword referenceNative "svc".toList "acct".toList Out.fresh
        ⟨sampleKeychain, []⟩).result = SUCCESS ∧
      (DeletePassword referenceNative "svc".toList "acct".toList Out.fresh
        (DeletePassword referenceNative "svc".toList "acct".toList Out.fresh
          ⟨sampleKeychain, []⟩).world).result = FAIL_NONFATAL) := by
  have h := delete_not_found_is_nonfatal
  refine ⟨?_, ?_, ?_, ?_, ?_, ?_⟩
  · exact (h.1 Script scriptedNative "svc".toList "acct".toList Out.fresh
      (scriptWorld [errSecItemNotFound]) (by decide)).1
  · exact (h.2.1 Script scriptedNative "svc".toList "acct".toList Out.fresh
      (scriptWorld [errSecItemNotFound]) (by decide)).2.2
  · exact (h.2.2.1 asciiOnly messageOf "svc".toList "acct".toList Out.fresh
      ⟨Keychain.empty, []⟩ (by decide)).1
  · exact (h.2.2.2.1 asciiOnly messageOf "svc".toList "acct".toList Out.fresh
      ⟨Keychain.empty, []⟩ (by decide)).1
  · exact ⟨by decide, h.2.2.2.2.1 asciiOnly messageOf "svc".toList "acct".toList Out.fresh
      ⟨sampleKeychain, []⟩ (by decide)⟩
  · exact ⟨by decide, h.2.2.2.2.2 asciiOnly messageOf "svc".toList "acct".toList Out.fresh
      ⟨sampleKeychain, []⟩ (by decide) (by decide)⟩

/-! ### Conversions that are exact -/

theorem readCString_of_no_NUL (t : List Char) (h : NUL ∉ t) : readCString t = t := by
  unfold readCString
  rw [List.takeWhile_eq_self_iff]
  intro x hx
  have : x ≠ NUL := fun e => h (e ▸ hx)
  simpa using this

theorem NUL_not_mem_readCString (t : List Char) : NUL ∉ readCString t := by
  intro h
  have := List.mem_takeWhile_imp h
  simp at this

theorem CFStringToStdString_exact {σ : Type} (N : Native σ) (t : List Char)
    (h : ConvertsExactly N t) : CFStringToStdString N t = t := by
  obtain ⟨hn, hp | hf⟩ := h
  · simp [CFStringToStdString, hp, readCString_of_no_NUL t hn]
  · by_cases hp : N.CFStringGetCStringPtr t = true
    · simp [CFStringToStdString, hp, readCString_of_no_NUL t hn]
    · have hfit : utf8Length t + 1 ≤ CFStringGetLength t * 2 + 1 := by omega
      simp [CFStringToStdString, hp, CFStringGetCString, hfit, readCString_of_no_NUL t hn]

/-- C4, failing input.  In the empty reference keychain, with the direct pointer
unavailable for non-ASCII strings, `SetSecret` of the one-character text U+20AC
(three bytes in UTF-8, one UTF-16 code unit) returns `SUCCESS`, and `GetSecret`
then returns `SUCCESS` with the empty string: the fallback buffer of
`1 * 2 + 1 = 3` bytes cannot hold the 3 bytes and the NUL. -/
theorem GetSecret_loses_three_byte_character :
    (SetSecret referenceNative "svc".toList "acct".toList "€".toList Out.fresh
      ⟨Keychain.empty, []⟩).result = SUCCESS ∧
    (GetSecret referenceNative "svc".toList "acct".toList Out.fresh Out.fresh
      (SetSecret referenceNative "svc".toList "acct".toList "€".toList Out.fresh
        ⟨Keychain.empty, []⟩).world).result = SUCCESS ∧
    (GetSecret referenceNative "svc".toList "acct".toList Out.fresh Out.fresh
      (SetSecret referenceNative "svc".toList "acct".toList "€".toList Out.fresh
        ⟨Keychain.empty, []⟩).world).payload.value = [] ∧
    utf8Bytes "€".toList = [0xE2, 0x82, 0xAC] ∧
    referenceNative.CFStringGetCStringPtr "€".toList = false ∧
    CFStringGetLength "€".toList * 2 + 1 = 3 ∧
    CFStringGetCString "€".toList 3 = none := by
  decide

theorem SetSecret_reference_update (ptr : CFString → Bool) (msg : OSStatus → CFString)
    (service account secret : StdString) (error : Out StdString) (w : World Keychain)
    (hany : w.keychain.internet.any
      (KeychainItem.hasKey (readCString service) (readCString account)) = true) :
    (SetSecret (reference ptr msg) service account secret error w).world.calls =
      w.calls ++ [NativeCall.SecItemUpdate (secretQuery service account)
        (updateAttributes secret)] := by
  simp [SetSecret, UpdateSecret_reference, hany]

theorem any_of_filter_eq_singleton (p : KeychainItem → Bool) (items : List KeychainItem)
    (x : KeychainItem) (h : items.filter p = [x]) : items.any p = true := by
  have hx : x ∈ items.filter p := by rw [h]; exact List.mem_singleton.mpr rfl
  rw [List.any_eq_true]
  exact ⟨x, (List.mem_filter.mp hx).1, (List.mem_filter.mp hx).2⟩

/-- C5, amended.  On a well-formed reference keychain (at most one item per
compound key, an update that stores the data given under `kSecValueData` and
does not consult the entry `UpdateSecret` reads out of bounds), for every
service, account, `secret1` and `secret2`: `SetSecret(s, a, secret1)` and then
`SetSecret(s, a, secret2)` both return `SUCCESS`; the second issues exactly one
native call, the `SecItemUpdate` with the two-entry attribute dictionary; the
keychain stays well formed and holds exactly one internet password under the
key of `(s, a)`, whose data is the C-string prefix of `secret2`; and
`GetSecret(s, a)` returns `SUCCESS` with `CFStringToStdString` of that prefix.
When `secret2` has no NUL and converts within `CFStringToStdString` (direct
pointer available, or UTF-8 length at most twice the UTF-16 length), the secret
returned is `secret2`. -/
theorem SetSecret_twice_then_GetSecret (ptr : CFString → Bool) (msg : OSStatus → CFString)
    (service account secret1 secret2 : StdString) (error1 error2 error3 payload : Out StdString)
    (w : World Keychain)
    (hk : w.keychain.WellFormed) :
    (SetSecret (reference ptr msg) service account secret1 error1 w).result = SUCCESS ∧
    (SetSecret (reference ptr msg) service account secret2 error2
      (SetSecret (reference ptr msg) service account secret1 error1 w).world).result = SUCCESS ∧
    (SetSecret (reference ptr msg) service account secret2 error2
      (SetSecret (reference ptr msg) service account secret1 error1 w).world).world.calls
      = (SetSecret (reference ptr msg) service account secret1 error1 w).world.calls ++
        [NativeCall.SecItemUpdate (secretQuery service account)
          [(CFKey.kSecValueData, CFValue.data (StdStringToCFString secret2)),
            (CFKey.outOfBounds 1, CFValue.outOfBounds 1)]] ∧
    (SetSecret (reference ptr msg) service account secret2 error2
      (SetSecret (reference ptr msg) service account secret1 error1 w).world).world.keychain.WellFormed ∧
    (SetSecret (reference ptr msg) service account secret2 error2
      (SetSecret (reference ptr msg) service account secret1 error1 w).world).world.keychain.internet.filter
        (KeychainItem.hasKey (StdStringToCFString service) (StdStringToCFString account))
      = [⟨StdStringToCFString service, StdStringToCFString account,
          StdStringToCFString secret2⟩] ∧
    (GetSecret (reference ptr msg) service account payload error3
      (SetSecret (reference ptr msg) service account secret2 error2
        (SetSecret (reference ptr msg) service account secret1 error1 w).world).world).result
      = SUCCESS ∧
    (GetSecret (reference ptr msg) service account payload error3
      (SetSecret (reference ptr msg) service account secret2 error2
        (SetSecret (reference ptr msg) service account secret1 error1 w).world).world).payload.value
      = CFStringToStdString (reference ptr msg) (StdStringToCFString secret2) ∧
    (ConvertsExactly (reference ptr msg) secret2 →
      (GetSecret (reference ptr msg) service account payload error3
        (SetSecret (reference ptr msg) service account secret2 error2
          (SetSecret (reference ptr msg) service account secret1 error1 w).world).world).payload.value
        = secret2) := by
  have s1 := SetSecret_reference ptr msg service account secret1 error1 w
  have s2 := SetSecret_reference ptr msg service account secret2 error2
    (SetSecret (reference ptr msg) service account secret1 error1 w).world
  have hf1 := filter_hasKey_setItem (readCString service) (readCString account)
    (readCString secret1) _ hk.1
  have u1 : uniqueKeys (setItem (readCString service) (readCString account)
      (readCString secret1) w.keychain.internet) := uniqueKeys_setItem _ _ _ _ hk.1
  have hf := filter_hasKey_setItem (readCString service) (readCString account)
    (readCString secret2) _ u1
  have u2 := uniqueKeys_setItem (readCString service) (readCString account)
    (readCString secret2) _ u1
  have hcalls := SetSecret_reference_update ptr msg service account secret2 error2
    (SetSecret (reference ptr msg) service account secret1 error1 w).world
    (by rw [s1.2.2]; exact any_of_filter_eq_singleton _ _ _ hf1)
  rw [s1.2.2] at s2
  have g := GetSecret_reference ptr msg service account payload error3
    (SetSecret (reference ptr msg) service account secret2 error2
      (SetSecret (reference ptr msg) service account secret1 error1 w).world).world
    ⟨readCString service, readCString account, readCString secret2⟩ []
    (by rw [s2.2.2]; exact hf)
  have hv : (GetSecret (reference ptr msg) service account payload error3
      (SetSecret (reference ptr msg) service account secret2 error2
        (SetSecret (reference ptr msg) service account secret1 error1 w).world).world).payload.value
      = CFStringToStdString (reference ptr msg) (readCString secret2) := by
    rw [g.2.2]; rfl
  refine ⟨s1.1, s2.1, hcalls, ?_, ?_, g.1, hv, ?_⟩
  · rw [s2.2.2]; exact ⟨u2, hk.2⟩
  · rw [s2.2.2]; exact hf
  · intro h2
    rw [hv, readCString_of_no_NUL secret2 h2.1]
    exact CFStringToStdString_exact _ secret2 h2

/-- C5, counterexample.  After `SetSecret("svc", "acct", "one")`, the second
`SetSecret` stores a secret with an embedded NUL, and `GetSecret` returns
`SUCCESS` with only the text before the NUL; with the secret U+20AC in the same
place (no direct pointer), `GetSecret` returns `SUCCESS` with the empty
string. -/
theorem SetSecret_twice_payload_differs :
    ((GetSecret referenceNative "svc".toList "acct".toList Out.fresh Out.fresh
        (SetSecret referenceNative "svc".toList "acct".toList ['a', NUL, 'b'] Out.fresh
          (SetSecret referenceNative "svc".toList "acct".toList "one".toList Out.fresh
            ⟨Keychain.empty, []⟩).world).world).result = SUCCESS ∧
      (GetSecret referenceNative "svc".toList "acct".toList Out.fresh Out.fresh
        (SetSecret referenceNative "svc".toList "acct".toList ['a', NUL, 'b'] Out.fresh
          (SetSecret referenceNative "svc".toList "acct".toList "one".toList Out.fresh
            ⟨Keychain.empty, []⟩).world).world).payload.value = ['a'] ∧
      ['a'] ≠ ['a', NUL, 'b']) ∧
    ((GetSecret referenceNative "svc".toList "acct".toList Out.fresh Out.fresh
        (SetSecret referenceNative "svc".toList "acct".toList "€".toList Out.fresh
          (SetSecret referenceNative "svc".toList "acct".toList "one".toList Out.fresh
            ⟨Keychain.empty, []⟩).world).world).result = SUCCESS ∧
      (GetSecret referenceNative "svc".toList "acct".toList Out.fresh Out.fresh
        (SetSecret referenceNative "svc".toList "acct".toList "€".toList Out.fresh
          (SetSecret referenceNative "svc".toList "acct".toList "one".toList Out.fresh
            ⟨Keychain.empty, []⟩).world).world).payload.value = [] ∧
      [] ≠ "€".toList) := by
  decide

/-- C5, amended, at a concrete input: a keychain that already holds the key,
and a second secret with two-byte and four-byte characters whose direct pointer
is unavailable. -/
theorem SetSecret_twice_then_GetSecret_witness :
    sampleKeychain.WellFormed ∧
    ConvertsExactly referenceNative "né😀".toList ∧
    (SetSecret referenceNative "svc".toList "acct".toList "né😀".toList Out.fresh
      (SetSecret referenceNative "svc".toList "acct".toList "one".toList Out.fresh
        ⟨sampleKeychain, []⟩).world).world.keychain.internet
      = [⟨"svc".toList, "acct".toList, "né😀".toList⟩] ∧
    (GetSecret referenceNative "svc".toList "acct".toList Out.fresh Out.fresh
      (SetSecret referenceNative "svc".toList "acct".toList "né😀".toList Out.fresh
        (SetSecret referenceNative "svc".toList "acct".toList "one".toList Out.fresh
          ⟨sampleKeychain, []⟩).world).world).payload.value = "né😀".toList :=
  ⟨by decide, ⟨by decide, Or.inr (by decide)⟩, by decide,
    (SetSecret_twice_then_GetSecret asciiOnly messageOf "svc".toList "acct".toList
      "one".toList "né😀".toList Out.fresh Out.fresh Out.fresh Out.fresh ⟨sampleKeychain, []⟩
      (by decide)).2.2.2.2.2.2.2 ⟨by decide, Or.inr (by decide)⟩⟩

/-! ### The Password family on the reference keychain -/

theorem filter_not_hasKey_of_none (s a : List Char) (items : List KeychainItem)
    (h : items.any (KeychainItem.hasKey s a) = false) :
    items.filter (fun it => !it.hasKey s a) = items := by
  rw [List.any_eq_false] at h
  rw [List.filter_eq_self]
  intro x hx
  simp [h x hx]

theorem uniqueKeys_filter (p : KeychainItem → Bool) (items : List KeychainItem)
    (h : uniqueKeys items) : uniqueKeys (items.filter p) := by
  unfold uniqueKeys at h ⊢
  exact h.sublist ((List.filter_sublist items).map _)

theorem AddPassword_reference (ptr : CFString → Bool) (msg : OSStatus → CFString)
    (service account password : StdString) (error : Out StdString) (b : Bool)
    (w : World Keychain) :
    AddPassword (reference ptr msg) service account password error b w =
      if w.keychain.generic.any (KeychainItem.hasKey service account) then
        if b then
          ⟨FAIL_NONFATAL, error, ⟨w.keychain,
            w.calls ++ [NativeCall.SecKeychainAddGenericPassword service account password]⟩⟩
        else
          ⟨FAIL_ERROR, error.assign (errorStatusToString (reference ptr msg) errSecDuplicateItem),
            ⟨w.keychain,
              w.calls ++ [NativeCall.SecKeychainAddGenericPassword service account password]⟩⟩
      else
        ⟨SUCCESS, error, ⟨⟨w.keychain.internet,
            w.keychain.generic ++ [⟨service, account, password⟩]⟩,
          w.calls ++ [NativeCall.SecKeychainAddGenericPassword service account password]⟩⟩ := by
  have hu : (reference ptr msg).SecKeychainAddGenericPassword service account password
      w.keychain =
      if w.keychain.generic.any (KeychainItem.hasKey service account) then
        (errSecDuplicateItem, w.keychain)
      else (errSecSuccess, ⟨w.keychain.internet,
        w.keychain.generic ++ [⟨service, account, password⟩]⟩) := rfl
  simp only [AddPassword, keytar.SecKeychainAddGenericPassword, hu]
  by_cases hany : w.keychain.generic.any (KeychainItem.hasKey service account) = true
  · cases b <;> simp [hany, errSecDuplicateItem, errSecSuccess]
  · simp [hany, errSecDuplicateItem, errSecSuccess]

theorem SetPassword_reference (ptr : CFString → Bool) (msg : OSStatus → CFString)
    (service account password : StdString) (error : Out StdString) (w : World Keychain)
    (hk : uniqueKeys w.keychain.generic) :
    (SetPassword (reference ptr msg) service account password error w).result = SUCCESS ∧
    (SetPassword (reference ptr msg) service account password error w).error = error ∧
    (SetPassword (reference ptr msg) service account password error w).world.keychain =
      ⟨w.keychain.internet,
        w.keychain.generic.filter (fun it => !it.hasKey service account)
          ++ [⟨service, account, password⟩]⟩ := by
  by_cases hany : w.keychain.generic.any (KeychainItem.hasKey service account) = true
  · have h1 : AddPassword (reference ptr msg) service account password error true w =
        ⟨FAIL_NONFATAL, error, ⟨w.keychain,
          w.calls ++ [NativeCall.SecKeychainAddGenericPassword service account password]⟩⟩ := by
      rw [AddPassword_reference, if_pos hany]; rfl
    have h2 : DeletePassword (reference ptr msg) service account error
        ⟨w.keychain,
          w.calls ++ [NativeCall.SecKeychainAddGenericPassword service account password]⟩ =
        ⟨SUCCESS, error, ⟨⟨w.keychain.internet,
            w.keychain.generic.filter (fun it => !it.hasKey service account)⟩,
          w.calls ++ [NativeCall.SecKeychainAddGenericPassword service account password] ++
            [NativeCall.SecKeychainFindGenericPassword service (some account),
              NativeCall.SecKeychainItemDelete ⟨service, account⟩]⟩⟩ := by
      rw [DeletePassword_reference, if_pos hany, eraseP_hasKey service account _ hk]
    have h3 := AddPassword_reference ptr msg service account password error false
      ⟨⟨w.keychain.internet, w.keychain.generic.filter (fun it => !it.hasKey service account)⟩,
        w.calls ++ [NativeCall.SecKeychainAddGenericPassword service account password] ++
          [NativeCall.SecKeychainFindGenericPassword service (some account),
            NativeCall.SecKeychainItemDelete ⟨service, account⟩]⟩
    rw [if_neg (by simp only [any_hasKey_filter_not]; simp)] at h3
    simp only [SetPassword, h1, h2, h3]
    simp
  · have hany' : w.keychain.generic.any (KeychainItem.hasKey service account) = false := by
      simpa using hany
    have h1 : AddPassword (reference ptr msg) service account password error true w =
        ⟨SUCCESS, error, ⟨⟨w.keychain.internet,
            w.keychain.generic ++ [⟨service, account, password⟩]⟩,
          w.calls ++ [NativeCall.SecKeychainAddGenericPassword service account password]⟩⟩ := by
      rw [AddPassword_reference, if_neg hany]
    simp only [SetPassword, h1, filter_not_hasKey_of_none service account _ hany']
    simp

theorem uniqueKeys_replace (s a d : List Char) (items : List KeychainItem)
    (h : uniqueKeys items) :
    uniqueKeys (items.filter (fun it => !it.hasKey s a) ++ [⟨s, a, d⟩]) :=
  uniqueKeys_append_new s a d _ (uniqueKeys_filter _ items h) (any_hasKey_filter_not s a items)

theorem filter_hasKey_of_mem (items : List KeychainItem) :
    uniqueKeys items → ∀ it ∈ items,
      items.filter (KeychainItem.hasKey it.service it.account) = [it] := by
  induction items with
  | nil => intro _ it hit; cases hit
  | cons x rest ih =>
    intro hu it hit
    rw [uniqueKeys_cons] at hu
    rcases List.mem_cons.mp hit with rfl | hmem
    · rw [List.filter_cons, filter_hasKey_of_none _ _ rest hu.1]
      simp [KeychainItem.hasKey]
    · have hx : x.hasKey it.service it.account = false := by
        by_contra hc
        have hc' : x.hasKey it.service it.account = true := by simpa using hc
        have hk := (hasKey_iff _ _ x).mp hc'
        have := hu.1
        rw [List.any_eq_false] at this
        apply this it hmem
        simp [KeychainItem.hasKey, hk.1, hk.2]
      rw [List.filter_cons]
      simp only [hx, Bool.false_eq_true, if_false]
      exact ih hu.2 it hmem

theorem getCredentialsForItem_reference (ptr : CFString → Bool) (msg : OSStatus → CFString)
    (s : CFString) (it : KeychainItem) (w : World Keychain)
    (hk : uniqueKeys w.keychain.generic) (hit : it ∈ w.keychain.generic) :
    (getCredentialsForItem (reference ptr msg) (itemAttributes (enumerationQuery s) it) w).1
      = credentialsOf (reference ptr msg) it ∧
    (getCredentialsForItem (reference ptr msg) (itemAttributes (enumerationQuery s) it)
      w).2.keychain = w.keychain := by
  have ha : itemAttributes (enumerationQuery s) it =
      [(CFKey.kSecAttrService, CFValue.string it.service),
        (CFKey.kSecAttrAccount, CFValue.string it.account)] := rfl
  have hs : (CFDictionaryGetValue (itemAttributes (enumerationQuery s) it)
      CFKey.kSecAttrService).asString = it.service := rfl
  have hacc : (CFDictionaryGetValue (itemAttributes (enumerationQuery s) it)
      CFKey.kSecAttrAccount).asString = it.account := rfl
  have hf := filter_hasKey_of_mem _ hk it hit
  have hq : queryMatches (itemQuery it.service it.account)
      = KeychainItem.hasKey it.service it.account := funext (queryMatches_itemQuery _ _)
  have h1 : CFDictionaryGetValue (itemQuery it.service it.account) CFKey.kSecMatchLimit
      = CFValue.kSecMatchLimitOne := rfl
  have h2 : CFDictionaryGetValue (itemQuery it.service it.account) CFKey.kSecReturnAttributes
      = CFValue.kCFBooleanTrue := rfl
  have hu : (reference ptr msg).SecItemCopyMatching (itemQuery it.service it.account)
      w.keychain = (errSecSuccess,
        CFTypeRef.dictionary (itemAttributes (itemQuery it.service it.account) it),
        w.keychain) := by
    simp only [reference, Keychain.SecItemCopyMatching, itemsOf_itemQuery, hq, hf, h1, h2]
    simp
  have hv : (CFDictionaryGetValue (itemAttributes (itemQuery it.service it.account) it)
      CFSTR_v_Data).asData = it.data := rfl
  simp only [getCredentialsForItem, hs, hacc, keytar.SecItemCopyMatching, hu, if_true,
    CFTypeRef.asDictionary, hv, CFStringCreateFromExternalRepresentation, credentialsOf]
  simp

theorem pushCredentials_reference (ptr : CFString → Bool) (msg : OSStatus → CFString)
    (s : CFString) (k : Keychain) (hk : uniqueKeys k.generic) (its : List KeychainItem) :
    (∀ it ∈ its, it ∈ k.generic) →
    ∀ (credentials : List Credentials) (w : World Keychain), w.keychain = k →
      (pushCredentials (reference ptr msg) (its.map (itemAttributes (enumerationQuery s)))
        credentials w).1 = credentials ++ its.map (credentialsOf (reference ptr msg)) ∧
      (pushCredentials (reference ptr msg) (its.map (itemAttributes (enumerationQuery s)))
        credentials w).2.keychain = k := by
  induction its with
  | nil => intro _ credentials w hw; simp [pushCredentials, hw]
  | cons it rest ih =>
    intro hmem credentials w hw
    have hit : it ∈ w.keychain.generic := by rw [hw]; exact hmem it (List.mem_cons_self _ _)
    have g := getCredentialsForItem_reference ptr msg s it w (by rw [hw]; exact hk) hit
    have r := ih (fun x hx => hmem x (List.mem_cons_of_mem _ hx))
      (credentials ++ [(getCredentialsForItem (reference ptr msg)
        (itemAttributes (enumerationQuery s) it) w).1])
      (getCredentialsForItem (reference ptr msg)
        (itemAttributes (enumerationQuery s) it) w).2 (by rw [g.2, hw])
    simp only [List.map_cons, pushCredentials]
    refine ⟨?_, r.2⟩
    rw [r.1, g.1]
    simp

theorem FindCredentials_reference (ptr : CFString → Bool) (msg : OSStatus → CFString)
    (service : StdString) (credentials : List Credentials) (error : Out StdString)
    (w : World Keychain) (hk : uniqueKeys w.keychain.generic) :
    (FindCredentials (reference ptr msg) service credentials error w).result =
      (if w.keychain.generic.filter (fun it => decide (it.service = readCString service)) = []
        then FAIL_NONFATAL else SUCCESS) ∧
    (FindCredentials (reference ptr msg) service credentials error w).error = error ∧
    (FindCredentials (reference ptr msg) service credentials error w).credentials =
      credentials ++ (w.keychain.generic.filter
        (fun it => decide (it.service = readCString service))).map
          (credentialsOf (reference ptr msg)) := by
  have hq : queryMatches (enumerationQuery (readCString service))
      = fun it => decide (it.service = readCString service) :=
    funext (queryMatches_enumerationQuery _)
  have h1 : CFDictionaryGetValue (enumerationQuery (readCString service)) CFKey.kSecMatchLimit
      = CFValue.kSecMatchLimitAll := rfl
  cases hf : w.keychain.generic.filter (fun it => decide (it.service = readCString service)) with
  | nil =>
    have hu : (reference ptr msg).SecItemCopyMatching (enumerationQuery (readCString service))
        w.keychain = (errSecItemNotFound, CFTypeRef.null, w.keychain) := by
      simp only [reference, Keychain.SecItemCopyMatching, itemsOf_enumerationQuery, hq, hf]
    simp only [FindCredentials, CFStringCreateWithCString, keytar.SecItemCopyMatching, hu]
    simp [errSecItemNotFound, errSecSuccess]
  | cons x rest =>
    have hu : (reference ptr msg).SecItemCopyMatching (enumerationQuery (readCString service))
        w.keychain = (errSecSuccess, CFTypeRef.array
          ((x :: rest).map (itemAttributes (enumerationQuery (readCString service)))),
          w.keychain) := by
      simp only [reference, Keychain.SecItemCopyMatching, itemsOf_enumerationQuery, hq, hf, h1]
      simp
    have hmem : ∀ it ∈ x :: rest, it ∈ w.keychain.generic := by
      intro it hit
      rw [← hf] at hit
      exact (List.mem_filter.mp hit).1
    have p := pushCredentials_reference ptr msg (readCString service) w.keychain hk
      (x :: rest) hmem credentials
      ⟨w.keychain, w.calls ++ [NativeCall.SecItemCopyMatching
        (enumerationQuery (readCString service))]⟩ rfl
    simp only [FindCredentials, CFStringCreateWithCString, keytar.SecItemCopyMatching, hu,
      if_true, CFTypeRef.asArray, p.1]
    simp

theorem replace_twice (s a d1 d2 : List Char) (items : List KeychainItem) :
    (items.filter (fun it => !it.hasKey s a) ++ [(⟨s, a, d1⟩ : KeychainItem)]).filter
        (fun it : KeychainItem => !it.hasKey s a) ++ [(⟨s, a, d2⟩ : KeychainItem)]
    = items.filter (fun it => !it.hasKey s a) ++ [⟨s, a, d2⟩] := by
  rw [List.filter_append, List.filter_filter]
  simp [KeychainItem.hasKey]

/-- C6, amended.  On a well-formed reference keychain, for every service,
account, `p1` and `p2`: `SetPassword(s, a, p1)` and then `SetPassword(s, a, p2)`
both return `SUCCESS`, and the keychain stays well formed and holds exactly one
generic password under `(s, a)`, with data `p2`.  `FindCredentials(s)` then
yields one entry per stored item under the C-string prefix of `s`, in
enumeration order, each the `CFStringToStdString` conversion of the item's
account and data.  When `s` has no NUL, it returns `SUCCESS` and the conversion
of `(a, p2)` is among the entries.  When moreover `a` and `p2` convert within
`CFStringToStdString` and no other account stored under `s` converts to `a`,
exactly one entry has account `a`, and its secret is `p2`. -/
theorem SetPassword_twice_then_FindCredentials (ptr : CFString → Bool)
    (msg : OSStatus → CFString) (service account p1 p2 : StdString)
    (error1 error2 error3 : Out StdString) (w : World Keychain)
    (hk : w.keychain.WellFormed) :
    (SetPassword (reference ptr msg) service account p1 error1 w).result = SUCCESS ∧
    (SetPassword (reference ptr msg) service account p2 error2
      (SetPassword (reference ptr msg) service account p1 error1 w).world).result = SUCCESS ∧
    (SetPassword (reference ptr msg) service account p2 error2
      (SetPassword (reference ptr msg) service account p1 error1 w).world).world.keychain.WellFormed ∧
    (SetPassword (reference ptr msg) service account p2 error2
      (SetPassword (reference ptr msg) service account p1 error1 w).world).world.keychain.generic.filter
        (KeychainItem.hasKey service account) = [⟨service, account, p2⟩] ∧
    (FindCredentials (reference ptr msg) service [] error3
      (SetPassword (reference ptr msg) service account p2 error2
        (SetPassword (reference ptr msg) service account p1 error1 w).world).world).credentials
      = ((SetPassword (reference ptr msg) service account p2 error2
          (SetPassword (reference ptr msg) service account p1 error1 w).world).world.keychain.generic.filter
          (fun it => decide (it.service = CFStringCreateWithCString service))).map
            (credentialsOf (reference ptr msg)) ∧
    (NUL ∉ service →
      (FindCredentials (reference ptr msg) service [] error3
        (SetPassword (reference ptr msg) service account p2 error2
          (SetPassword (reference ptr msg) service account p1 error1 w).world).world).result
        = SUCCESS ∧
      credentialsOf (reference ptr msg) ⟨service, account, p2⟩ ∈
        (FindCredentials (reference ptr msg) service [] error3
          (SetPassword (reference ptr msg) service account p2 error2
            (SetPassword (reference ptr msg) service account p1 error1 w).world).world).credentials) ∧
    (NUL ∉ service →
      ConvertsExactly (reference ptr msg) account →
      ConvertsExactly (reference ptr msg) p2 →
      (∀ it ∈ w.keychain.generic, it.service = service → it.account ≠ account →
        CFStringToStdString (reference ptr msg) it.account ≠ account) →
      (FindCredentials (reference ptr msg) service [] error3
        (SetPassword (reference ptr msg) service account p2 error2
          (SetPassword (reference ptr msg) service account p1 error1 w).world).world).credentials.filter
          (fun c => decide (c.account = account)) = [⟨account, p2⟩]) := by
  have s1 := SetPassword_reference ptr msg service account p1 error1 w hk.2
  have u1 := uniqueKeys_replace service account p1 w.keychain.generic hk.2
  have s2 := SetPassword_reference ptr msg service account p2 error2
    (SetPassword (reference ptr msg) service account p1 error1 w).world
    (by rw [s1.2.2]; exact u1)
  have hg : (SetPassword (reference ptr msg) service account p2 error2
      (SetPassword (reference ptr msg) service account p1 error1 w).world).world.keychain.generic
      = w.keychain.generic.filter (fun it => !it.hasKey service account)
        ++ [⟨service, account, p2⟩] := by
    rw [s2.2.2, s1.2.2]
    exact replace_twice service account p1 p2 w.keychain.generic
  have hi : (SetPassword (reference ptr msg) service account p2 error2
      (SetPassword (reference ptr msg) service account p1 error1 w).world).world.keychain.internet
      = w.keychain.internet := by
    rw [s2.2.2, s1.2.2]
  have u2 := uniqueKeys_replace service account p2 w.keychain.generic hk.2
  have fc := FindCredentials_reference ptr msg service [] error3
    (SetPassword (reference ptr msg) service account p2 error2
      (SetPassword (reference ptr msg) service account p1 error1 w).world).world
    (by rw [hg]; exact u2)
  have hfound : (w.keychain.generic.filter (fun it => !it.hasKey service account)
      ++ [(⟨service, account, p2⟩ : KeychainItem)]).filter
        (fun it : KeychainItem => decide (it.service = service))
      = (w.keychain.generic.filter (fun it => !it.hasKey service account)).filter
          (fun it => decide (it.service = service)) ++ [⟨service, account, p2⟩] := by
    rw [List.filter_append]; simp
  refine ⟨s1.1, s2.1, ?_, ?_, ?_, ?_, ?_⟩
  · exact ⟨by rw [hi]; exact hk.1, by rw [hg]; exact u2⟩
  · rw [hg, List.filter_append,
      filter_hasKey_of_none service account _ (any_hasKey_filter_not service account _)]
    simp [KeychainItem.hasKey]
  · rw [fc.2.2, List.nil_append]; rfl
  · intro hs
    rw [hg, readCString_of_no_NUL service hs, hfound] at fc
    refine ⟨by rw [fc.1]; simp, ?_⟩
    rw [fc.2.2]
    simp
  · intro hs ha hp hother
    rw [hg, readCString_of_no_NUL service hs, hfound] at fc
    rw [fc.2.2, List.nil_append, List.map_append, List.filter_append]
    have hrest : List.filter (fun c : Credentials => decide (c.account = account))
        (((w.keychain.generic.filter (fun it => !it.hasKey service account)).filter
          (fun it => decide (it.service = service))).map (credentialsOf (reference ptr msg)))
        = [] := by
      rw [List.filter_eq_nil_iff]
      intro c hc
      obtain ⟨it, hit, rfl⟩ := List.mem_map.mp hc
      have h1 := List.mem_filter.mp hit
      have h2 := List.mem_filter.mp h1.1
      have hsvc : it.service = service := by simpa using h1.2
      have hnk : it.hasKey service account = false := by simpa using h2.2
      have hacc : it.account ≠ account := by
        intro e
        simp [KeychainItem.hasKey, hsvc, e] at hnk
      have := hother it h2.1 hsvc hacc
      simpa [credentialsOf] using this
    rw [hrest]
    simp [credentialsOf, CFStringToStdString_exact _ account ha,
      CFStringToStdString_exact _ p2 hp]

/-- C6, counterexample.  After `SetPassword("svc", "acct", "one")`, the second
`SetPassword` stores a password with an embedded NUL: both calls return
`SUCCESS`, and the entry `FindCredentials` returns for `"acct"` carries only the
text before the NUL; with the password U+20AC in the same place (no direct
pointer) the entry carries the empty string. -/
theorem SetPassword_twice_secret_differs :
    ((SetPassword referenceNative "svc".toList "acct".toList ['a', NUL, 'b'] Out.fresh
        (SetPassword referenceNative "svc".toList "acct".toList "one".toList Out.fresh
          ⟨Keychain.empty, []⟩).world).result = SUCCESS ∧
      (FindCredentials referenceNative "svc".toList [] Out.fresh
        (SetPassword referenceNative "svc".toList "acct".toList ['a', NUL, 'b'] Out.fresh
          (SetPassword referenceNative "svc".toList "acct".toList "one".toList Out.fresh
            ⟨Keychain.empty, []⟩).world).world).credentials = [⟨"acct".toList, ['a']⟩] ∧
      ['a'] ≠ ['a', NUL, 'b']) ∧
    ((SetPassword referenceNative "svc".toList "acct".toList "€".toList Out.fresh
        (SetPassword referenceNative "svc".toList "acct".toList "one".toList Out.fresh
          ⟨Keychain.empty, []⟩).world).result = SUCCESS ∧
      (FindCredentials referenceNative "svc".toList [] Out.fresh
        (SetPassword referenceNative "svc".toList "acct".toList "€".toList Out.fresh
          (SetPassword referenceNative "svc".toList "acct".toList "one".toList Out.fresh
            ⟨Keychain.empty, []⟩).world).world).credentials = [⟨"acct".toList, []⟩] ∧
      [] ≠ "€".toList) := by
  decide

/-- C6, amended, at a concrete input: a keychain that already holds the key. -/
theorem SetPassword_twice_then_FindCredentials_witness :
    sampleKeychain.WellFormed ∧
    (FindCredentials referenceNative "svc".toList [] Out.fresh
      (SetPassword referenceNative "svc".toList "acct".toList "two".toList Out.fresh
        (SetPassword referenceNative "svc".toList "acct".toList "one".toList Out.fresh
          ⟨sampleKeychain, []⟩).world).world).credentials.filter
        (fun c => decide (c.account = "acct".toList)) = [⟨"acct".toList, "two".toList⟩] :=
  ⟨by decide,
    (SetPassword_twice_then_FindCredentials asciiOnly messageOf "svc".toList "acct".toList
      "one".toList "two".toList Out.fresh Out.fresh Out.fresh ⟨sampleKeychain, []⟩
      (by decide)).2.2.2.2.2.2 (by decide) ⟨by decide, Or.inl (by decide)⟩
      ⟨by decide, Or.inl (by decide)⟩ (by decide)⟩

theorem SetPasswordEach_reference (ptr : CFString → Bool) (msg : OSStatus → CFString)
    (service : StdString) (entries : List (StdString × StdString)) :
    ∀ (w : World Keychain), uniqueKeys w.keychain.generic →
      (∀ e ∈ entries, w.keychain.generic.any (KeychainItem.hasKey service e.1) = false) →
      (entries.map Prod.fst).Nodup →
      (SetPasswordEach (reference ptr msg) service entries w).1
        = entries.map (fun _ => SUCCESS) ∧
      (SetPasswordEach (reference ptr msg) service entries w).2.keychain
        = ⟨w.keychain.internet,
            w.keychain.generic ++ entries.map (fun e => ⟨service, e.1, e.2⟩)⟩ := by
  induction entries with
  | nil => intro w _ _ _; simp [SetPasswordEach]
  | cons e rest ih =>
    intro w hk hnone hnd
    have s := SetPassword_reference ptr msg service e.1 e.2 Out.fresh w hk
    have hn := hnone e (List.mem_cons_self _ _)
    rw [filter_not_hasKey_of_none service e.1 _ hn] at s
    rw [List.map_cons, List.nodup_cons] at hnd
    have hk1 : uniqueKeys (SetPassword (reference ptr msg) service e.1 e.2 Out.fresh
        w).world.keychain.generic := by
      rw [s.2.2]; exact uniqueKeys_append_new service e.1 e.2 _ hk hn
    have hnone1 : ∀ x ∈ rest, (SetPassword (reference ptr msg) service e.1 e.2 Out.fresh
        w).world.keychain.generic.any (KeychainItem.hasKey service x.1) = false := by
      intro x hx
      rw [s.2.2]
      have h1 := hnone x (List.mem_cons_of_mem _ hx)
      have h2 : e.1 ≠ x.1 := by
        intro heq
        exact hnd.1 (List.mem_map.mpr ⟨x, hx, heq.symm⟩)
      simp only [List.any_append, h1, Bool.false_or, List.any_cons, List.any_nil, Bool.or_false]
      simp [KeychainItem.hasKey, h2]
    have r := ih _ hk1 hnone1 hnd.2
    simp only [SetPasswordEach, List.map_cons]
    refine ⟨by rw [r.1, s.1], ?_⟩
    rw [r.2, s.2.2]
    simp

/-- C9, amended.  On a well-formed reference keychain with no generic password
under the service, after `SetPassword` has run for `N` pairwise distinct
accounts `a_1 .. a_N` with passwords `p_1 .. p_N`: every `SetPassword` returned
`SUCCESS` and the keychain holds the `N` new items after the old ones.  When the
service has no NUL, `FindCredentials(service)` appends exactly `N` entries, one
per stored item in enumeration order, each the `CFStringToStdString` conversion
of `(a_i, p_i)`, returning `SUCCESS` when `N > 0` and `FAIL_NONFATAL` with no
entry appended when `N = 0`.  When moreover every `a_i` and `p_i` converts
within `CFStringToStdString`, the entries are exactly the pairs `(a_i, p_i)`. -/
theorem FindCredentials_after_SetPasswordEach (ptr : CFString → Bool)
    (msg : OSStatus → CFString) (service : StdString)
    (entries : List (StdString × StdString)) (credentials : List Credentials)
    (error : Out StdString) (w : World Keychain)
    (hk : w.keychain.WellFormed)
    (hempty : ∀ it ∈ w.keychain.generic, it.service ≠ service)
    (hdistinct : (entries.map Prod.fst).Nodup) :
    (SetPasswordEach (reference ptr msg) service entries w).1
      = entries.map (fun _ => SUCCESS) ∧
    (SetPasswordEach (reference ptr msg) service entries w).2.keychain.generic
      = w.keychain.generic ++ entries.map (fun e => ⟨service, e.1, e.2⟩) ∧
    (NUL ∉ service →
      (FindCredentials (reference ptr msg) service credentials error
        (SetPasswordEach (reference ptr msg) service entries w).2).result
        = (if entries = [] then FAIL_NONFATAL else SUCCESS) ∧
      (FindCredentials (reference ptr msg) service credentials error
        (SetPasswordEach (reference ptr msg) service entries w).2).credentials
        = credentials ++ entries.map (fun e =>
            ⟨CFStringToStdString (reference ptr msg) e.1,
              CFStringToStdString (reference ptr msg) e.2⟩) ∧
      ((FindCredentials (reference ptr msg) service credentials error
        (SetPasswordEach (reference ptr msg) service entries w).2).credentials).length
        = credentials.length + entries.length) ∧
    (NUL ∉ service →
      (∀ e ∈ entries, ConvertsExactly (reference ptr msg) e.1 ∧
        ConvertsExactly (reference ptr msg) e.2) →
      (FindCredentials (reference ptr msg) service credentials error
        (SetPasswordEach (reference ptr msg) service entries w).2).credentials
        = credentials ++ entries.map (fun e => ⟨e.1, e.2⟩)) := by
  have hnone : ∀ e ∈ entries,
      w.keychain.generic.any (KeychainItem.hasKey service e.1) = false := by
    intro e _
    rw [List.any_eq_false]
    intro it hit hkey
    exact hempty it hit ((hasKey_iff _ _ it).mp hkey).1
  have sp := SetPasswordEach_reference ptr msg service entries w hk.2 hnone hdistinct
  have hg : (SetPasswordEach (reference ptr msg) service entries w).2.keychain.generic
      = w.keychain.generic ++ entries.map (fun e => ⟨service, e.1, e.2⟩) := by
    rw [sp.2]
  have hu : uniqueKeys (SetPasswordEach (reference ptr msg) service entries
      w).2.keychain.generic := by
    rw [hg]
    unfold uniqueKeys
    rw [List.map_append, List.nodup_append]
    refine ⟨hk.2, ?_, ?_⟩
    · rw [List.map_map]
      have : ((fun it : KeychainItem => (it.service, it.account)) ∘
          fun e : StdString × StdString => (⟨service, e.1, e.2⟩ : KeychainItem))
          = (fun a => (service, a)) ∘ Prod.fst := by
        funext e; rfl
      rw [this, ← List.map_map]
      exact hdistinct.map (fun a b h => (Prod.mk.injEq _ _ _ _ ▸ h).2)
    · intro x hx hx'
      obtain ⟨it, hit, rfl⟩ := List.mem_map.mp hx
      obtain ⟨it', hit', hkey⟩ := List.mem_map.mp hx'
      obtain ⟨e, _, rfl⟩ := List.mem_map.mp hit'
      simp only [Prod.mk.injEq] at hkey
      exact hempty it hit hkey.1.symm
  have fc := FindCredentials_reference ptr msg service credentials error
    (SetPasswordEach (reference ptr msg) service entries w).2 hu
  have main : NUL ∉ service →
      (FindCredentials (reference ptr msg) service credentials error
        (SetPasswordEach (reference ptr msg) service entries w).2).result
        = (if entries = [] then FAIL_NONFATAL else SUCCESS) ∧
      (FindCredentials (reference ptr msg) service credentials error
        (SetPasswordEach (reference ptr msg) service entries w).2).credentials
        = credentials ++ entries.map (fun e =>
            ⟨CFStringToStdString (reference ptr msg) e.1,
              CFStringToStdString (reference ptr msg) e.2⟩) := by
    intro hs
    have hfound : (SetPasswordEach (reference ptr msg) service entries
        w).2.keychain.generic.filter (fun it => decide (it.service = readCString service))
        = entries.map (fun e => ⟨service, e.1, e.2⟩) := by
      rw [hg, readCString_of_no_NUL service hs, List.filter_append]
      have h1 : w.keychain.generic.filter (fun it => decide (it.service = service)) = [] := by
        rw [List.filter_eq_nil_iff]
        intro it hit
        simpa using hempty it hit
      have h2 : (entries.map (fun e => (⟨service, e.1, e.2⟩ : KeychainItem))).filter
          (fun it => decide (it.service = service))
          = entries.map (fun e => ⟨service, e.1, e.2⟩) := by
        rw [List.filter_eq_self]
        intro it hit
        obtain ⟨e, _, rfl⟩ := List.mem_map.mp hit
        simp
      rw [h1, h2, List.nil_append]
    rw [hfound] at fc
    have hcred : (entries.map (fun e => (⟨service, e.1, e.2⟩ : KeychainItem))).map
        (credentialsOf (reference ptr msg))
        = entries.map (fun e => (⟨CFStringToStdString (reference ptr msg) e.1,
            CFStringToStdString (reference ptr msg) e.2⟩ : Credentials)) := by
      rw [List.map_map]; rfl
    rw [hcred] at fc
    refine ⟨?_, fc.2.2⟩
    rw [fc.1]
    cases entries <;> simp
  refine ⟨sp.1, hg, ?_, ?_⟩
  · intro hs
    exact ⟨(main hs).1, (main hs).2, by rw [(main hs).2]; simp⟩
  · intro hs hexact
    rw [(main hs).2]
    congr 1
    apply List.map_congr_left
    intro e he
    rw [CFStringToStdString_exact _ e.1 (hexact e he).1,
      CFStringToStdString_exact _ e.2 (hexact e he).2]

/-- C9, counterexample.  From the empty keychain, `SetPassword` succeeds for the
single account `"acct"` with a password that has an embedded NUL, and
`FindCredentials` returns one entry whose secret is only the text before the
NUL; with the password U+20AC in the same place (no direct pointer) the
returned secret is the empty string. -/
theorem FindCredentials_pairs_differ :
    ((SetPasswordEach referenceNative "svc".toList [("acct".toList, ['a', NUL, 'b'])]
        ⟨Keychain.empty, []⟩).1 = [SUCCESS] ∧
      (FindCredentials referenceNative "svc".toList [] Out.fresh
        (SetPasswordEach referenceNative "svc".toList [("acct".toList, ['a', NUL, 'b'])]
          ⟨Keychain.empty, []⟩).2).credentials = [⟨"acct".toList, ['a']⟩] ∧
      (⟨"acct".toList, ['a']⟩ : Credentials) ≠ ⟨"acct".toList, ['a', NUL, 'b']⟩) ∧
    ((SetPasswordEach referenceNative "svc".toList [("acct".toList, "€".toList)]
        ⟨Keychain.empty, []⟩).1 = [SUCCESS] ∧
      (FindCredentials referenceNative "svc".toList [] Out.fresh
        (SetPasswordEach referenceNative "svc".toList [("acct".toList, "€".toList)]
          ⟨Keychain.empty, []⟩).2).credentials = [⟨"acct".toList, []⟩] ∧
      (⟨"acct".toList, []⟩ : Credentials) ≠ ⟨"acct".toList, "€".toList⟩) := by
  decide

/-- C9, amended, at a concrete input: two accounts under the service `"mail"`
in a keychain that holds items of another service, the second password with
two-byte and four-byte characters whose direct pointer is unavailable. -/
theorem FindCredentials_after_SetPasswordEach_witness :
    sampleKeychain.WellFormed ∧
    (∀ it ∈ sampleKeychain.generic, it.service ≠ "mail".toList) ∧
    (FindCredentials referenceNative "mail".toList [] Out.fresh
      (SetPasswordEach referenceNative "mail".toList
        [("alice".toList, "one".toList), ("bob".toList, "né😀".toList)]
        ⟨sampleKeychain, []⟩).2).credentials
      = [⟨"alice".toList, "one".toList⟩, ⟨"bob".toList, "né😀".toList⟩] ∧
    (FindCredentials referenceNative "mail".toList [] Out.fresh
      (SetPasswordEach referenceNative "mail".toList [] ⟨sampleKeychain, []⟩).2).result
      = FAIL_NONFATAL :=
  ⟨by decide, by decide,
    (FindCredentials_after_SetPasswordEach asciiOnly messageOf "mail".toList
      [("alice".toList, "one".toList), ("bob".toList, "né😀".toList)] [] Out.fresh
      ⟨sampleKeychain, []⟩ (by decide) (by decide) (by decide)).2.2.2 (by decide) (by decide),
    ((FindCredentials_after_SetPasswordEach asciiOnly messageOf "mail".toList
      [] [] Out.fresh
      ⟨sampleKeychain, []⟩ (by decide) (by decide) (by decide)).2.2.1 (by decide)).1⟩

/-! ### The fallback path of the string conversion -/

/-- The fallback path of `CFStringToStdString`, in full: for a string without
NUL whose direct pointer is unavailable, the result is the string itself when
its UTF-8 length is at most twice its UTF-16 length, and the empty string
otherwise. -/
theorem CFStringToStdString_fallback {σ : Type} (N : Native σ) (t : CFString)
    (hp : N.CFStringGetCStringPtr t = false) (hn : NUL ∉ t) :
    CFStringToStdString N t = if utf8Length t ≤ CFStringGetLength t * 2 then t else [] := by
  by_cases hfit : utf8Length t ≤ CFStringGetLength t * 2
  · have h1 : utf8Length t + 1 ≤ CFStringGetLength t * 2 + 1 := by omega
    simp [CFStringToStdString, hp, CFStringGetCString, h1, hfit, readCString_of_no_NUL t hn]
  · have h1 : ¬ utf8Length t + 1 ≤ CFStringGetLength t * 2 + 1 := by omega
    simp [CFStringToStdString, hp, CFStringGetCString, h1, hfit]

/-- The fallback path at concrete inputs: a four-byte character survives, a
three-byte character does not. -/
theorem CFStringToStdString_fallback_witness :
    CFStringToStdString referenceNative "😀".toList = "😀".toList ∧
    CFStringToStdString referenceNative "€".toList = [] :=
  ⟨(CFStringToStdString_fallback referenceNative "😀".toList (by decide) (by decide)).trans
      (by decide),
    (CFStringToStdString_fallback referenceNative "€".toList (by decide) (by decide)).trans
      (by decide)⟩

/-! ### Entry counts of the `CFDictionaryCreate` calls -/

/-- C11, failing input.  For every secret, the attribute dictionary of
`UpdateSecret` is built from `attributeKeys[1]` and `attributeValues[1]` with
the entry count 2: the count exceeds the declared length of both arrays and the
one populated slot, and the read of slot 1 is out of bounds in both.  The other
dictionaries (the query of `UpdateSecret` and `DeleteSecret`, and those of
`AddSecret` and `GetSecret`) pass a count equal to the length of their arrays,
and every slot they read is in bounds. -/
theorem UpdateSecret_attributes_count_exceeds_arrays (serviceStr accountStr : CFString)
    (secretData : CFData) :
    ((updateAttributesArgs secretData).numValues = 2 ∧
      (updateAttributesArgs secretData).keys.length = 1 ∧
      (updateAttributesArgs secretData).values.length = 1 ∧
      (updateAttributesArgs secretData).slotsRead = [0, 1] ∧
      (updateAttributesArgs secretData).keys[1]? = none ∧
      (updateAttributesArgs secretData).values[1]? = none ∧
      ¬ (updateAttributesArgs secretData).CountFits ∧
      ¬ (updateAttributesArgs secretData).ReadsInBounds) ∧
    ((secretQueryArgs serviceStr accountStr).CountFits ∧
      (secretQueryArgs serviceStr accountStr).ReadsInBounds) ∧
    ((addAttributesArgs serviceStr accountStr secretData).CountFits ∧
      (addAttributesArgs serviceStr accountStr secretData).ReadsInBounds) ∧
    ((getQueryArgs serviceStr accountStr).CountFits ∧
      (getQueryArgs serviceStr accountStr).ReadsInBounds) := by
  refine ⟨⟨rfl, rfl, rfl, rfl, rfl, rfl, ?_, ?_⟩, ⟨?_, ?_⟩, ⟨?_, ?_⟩, ⟨?_, ?_⟩⟩
  · simp [CFDictionaryCreateArgs.CountFits, updateAttributesArgs]
  · intro h
    have := h 1 (by simp [CFDictionaryCreateArgs.slotsRead, updateAttributesArgs])
    simp [updateAttributesArgs] at this
  · simp [CFDictionaryCreateArgs.CountFits, secretQueryArgs]
  · intro i hi
    simp [CFDictionaryCreateArgs.slotsRead, secretQueryArgs] at hi ⊢
    exact hi
  · simp [CFDictionaryCreateArgs.CountFits, addAttributesArgs]
  · intro i hi
    simp [CFDictionaryCreateArgs.slotsRead, addAttributesArgs] at hi ⊢
    exact hi
  · simp [CFDictionaryCreateArgs.CountFits, getQueryArgs]
  · intro i hi
    simp [CFDictionaryCreateArgs.slotsRead, getQueryArgs] at hi ⊢
    exact hi

end keytar
